import Mathlib

/-!
Shallow embedding of the conversation-model core of WrapGPT
(`src/ams/ai.py`): the Message/Usage/Response value types and their
API-payload parsers, the ChatCompletionParams validation, and the
Chat/ChatEntry branching conversation tree with its navigation state
machine.

Python's mutable object graph is embedded as an arena: `ChatEntry`
objects live in an indexed list, object identity is the index, and
`Response` objects live in a separate indexed heap so that the aliasing
introduced by Python's evaluate-once default arguments is observable.
Python exceptions are embedded as `Except PyErr`.
-/

namespace WrapGPT

/-- Python exception values that the embedded code can raise. -/
inductive PyErr where
  | typeErr (msg : String)
  | valueErr (msg : String)
  | indexErr
  | attrErr
deriving DecidableEq, Repr

/-- `DEFAULT_ID = str(uuid.UUID(int=0))`. -/
def DEFAULT_ID : String := "00000000-0000-0000-0000-000000000000"

/-- `DEFAULT_TIME = 0`. -/
def DEFAULT_TIME : Int := 0

/-- The `Message` value: role, content, id, created. -/
structure Message where
  role : String
  content : String
  id : String
  created : Int
deriving DecidableEq, Repr

/-- `Message.Default()`: empty role/content, zero uuid, zero timestamp. -/
def Message.Default : Message :=
  { role := "", content := "", id := DEFAULT_ID, created := 0 }

/-- `Message.isDefault()`: attribute-wise comparison against the sentinel. -/
def Message.isDefault (m : Message) : Bool :=
  m.role = "" && m.content = "" && m.id = DEFAULT_ID && m.created = DEFAULT_TIME

/-- `Message.toMessage()` is the identity on a plain message. -/
def Message.toMessage (m : Message) : Message := m

/-- The `Usage` token-count triple. -/
structure Usage where
  prompt_tokens : Int
  completion_tokens : Int
  total_tokens : Int
deriving DecidableEq, Repr

/-- `Usage()` with the dataclass defaults: all zero. -/
def Usage.zero : Usage := { prompt_tokens := 0, completion_tokens := 0, total_tokens := 0 }

/-- `Usage.isDefault()`: all three counters are zero. -/
def Usage.isDefault (u : Usage) : Bool :=
  u.prompt_tokens = 0 && u.completion_tokens = 0 && u.total_tokens = 0

/-- The `Response` value. `choices` holds plain messages: in every code
path the claims exercise, the stored choices are `Message`s (a streamed
chain is collapsed by `toMessage()` before being stored). -/
structure Response where
  choices : List Message
  created : Int
  id : String
  model : String
  object_ : String
  usage : Usage
deriving DecidableEq, Repr

/-- `Response.Default()`. -/
def Response.Default : Response :=
  { choices := [], created := 0, id := "", model := "", object_ := "", usage := Usage.zero }

/-- `Response.isDefault()`. -/
def Response.isDefault (r : Response) : Bool :=
  r.choices = [] && r.created = 0 && r.id = "" && r.model = "" && r.object_ = ""
    && r.usage.isDefault

/-! ## JSON-like payload values

Raw API payloads are dynamically-typed Python dicts/lists; they are
embedded as a JSON-like value tree. A dict is a key/value list looked up
by first match. Python's `bool`-is-an-`int` corner is not modelled:
payload integers are integers. -/

/-- A dynamically typed payload value. -/
inductive JValue where
  | null
  | bool (b : Bool)
  | int (n : Int)
  | str (s : String)
  | arr (xs : List JValue)
  | obj (fields : List (String × JValue))

/-- Dict lookup, first match wins (Python dict keys are unique). -/
def jget : List (String × JValue) → String → Option JValue
  | [], _ => none
  | (k, v) :: rest, key => if k = key then some v else jget rest key

/-- Python truthiness of a payload value. -/
def JValue.truthy : JValue → Bool
  | .null => false
  | .bool b => b
  | .int n => n ≠ 0
  | .str s => s ≠ ""
  | .arr xs => !xs.isEmpty
  | .obj fs => !fs.isEmpty

/-- `isinstance(v, dict)`. -/
def JValue.isObj : JValue → Bool
  | .obj _ => true
  | _ => false

/-- The fields of an object value (defaulting to empty). -/
def JValue.asObjD : JValue → List (String × JValue)
  | .obj fs => fs
  | _ => []

/-- Python's `"key" in someList` membership test (string equality against
each element; non-string elements never compare equal). -/
def jstrMem (xs : List JValue) (s : String) : Bool :=
  xs.any fun v => match v with
    | .str t => t = s
    | _ => false

/-- `isinstance(v, str)`. -/
def JValue.isStr : JValue → Bool
  | .str _ => true
  | _ => false

/-- `isinstance(v, list)`. -/
def JValue.isArr : JValue → Bool
  | .arr _ => true
  | _ => false

/-- `isinstance(v, int)` (the `bool`-subclass corner is not modelled). -/
def JValue.isInt : JValue → Bool
  | .int _ => true
  | _ => false

/-! ## Message construction and parsing -/

/-- The `Message.__init__` body: the `role` and `content` property setters
type-check their dynamically typed arguments and raise `TypeError` on a
non-string value (`role` is assigned first). -/
def mkMessage (role content : JValue) (id : String) (created : Int) :
    Except PyErr Message :=
  match role with
  | .str r =>
    match content with
    | .str c => .ok { role := r, content := c, id := id, created := created }
    | _ => .error (.typeErr "content must be a string")
  | _ => .error (.typeErr "role must be a string")

/-- `Message.FromApiResponse`: parses a raw response dict. Returns
`.ok none` when a required field is missing or mis-typed; the final
`Message(...)` construction can still raise through the property setters
when the extracted `role`/`content` values are not strings. A choice with
a `delta` key is a streaming chunk and implies `role = "assistant"`. -/
def Message.FromApiResponse (apiResponse : List (String × JValue)) :
    Except PyErr (Option Message) :=
  match jget apiResponse "choices", jget apiResponse "id", jget apiResponse "created" with
  | some (.arr cs), some (.str id), some (.int created) =>
    match cs with
    | [] => .ok none
    | choice :: _ =>
      match choice with
      | .obj ch =>
        match jget ch "delta" with
        | some d =>
          match d with
          | .obj msg =>
            match jget msg "content" with
            | some content => (mkMessage (.str "assistant") content id created).map some
            | none => .ok none
          | _ => .ok none
        | none =>
          match jget ch "message" with
          | some (.obj msg) =>
            match jget msg "role", jget msg "content" with
            | some role, some content => (mkMessage role content id created).map some
            | _, _ => .ok none
          | some _ => .ok none
          | none => .ok none
      | _ => .ok none
  | _, _, _ => .ok none

/-- One step of the streaming variant (`PartialMess*.FromApiResponse` in
the source, renamed here): only a `delta` choice is accepted and the role
is forced to `"assistant"`. The fragment chain is embedded as the list of
fragments in arrival order. -/
def StreamingMessage.FromApiResponse (apiResponse : List (String × JValue)) :
    Except PyErr (Option Message) :=
  match jget apiResponse "choices", jget apiResponse "id", jget apiResponse "created" with
  | some (.arr cs), some (.str id), some (.int created) =>
    match cs with
    | [] => .ok none
    | choice :: _ =>
      match choice with
      | .obj ch =>
        match jget ch "delta" with
        | some (.obj msg) =>
          match jget msg "content" with
          | some content => (mkMessage (.str "assistant") content id created).map some
          | none => .ok none
        | some _ => .ok none
        | none => .ok none
      | _ => .ok none
  | _, _, _ => .ok none

/-- The body of the chunk-folding loop of `FromApiResponses`: any invalid
chunk makes the whole batch invalid, and an exception from a chunk
propagates. The built chain is embedded as the fragment list. -/
def StreamingMessage.foldChunks : List (List (String × JValue)) →
    Except PyErr (Option (List Message))
  | [] => .ok (some [])
  | r :: rest => do
    match ← StreamingMessage.FromApiResponse r with
    | none => .ok none
    | some m =>
      match ← StreamingMessage.foldChunks rest with
      | none => .ok none
      | some ms => .ok (some (m :: ms))

/-- `FromApiResponses`: the empty batch is invalid, otherwise the chunks
are folded into one chain. -/
def StreamingMessage.FromApiResponses (apiResponses : List (List (String × JValue))) :
    Except PyErr (Option (List Message)) :=
  match apiResponses with
  | [] => .ok none
  | _ :: _ => StreamingMessage.foldChunks apiResponses

/-! ## Usage / Response parsing and serialization -/

/-- `Usage.FromApiResponse`: all three counters must be present integers. -/
def Usage.FromApiResponse (api : List (String × JValue)) : Option Usage :=
  match jget api "prompt_tokens", jget api "completion_tokens", jget api "total_tokens" with
  | some (.int p), some (.int c), some (.int t) =>
    some { prompt_tokens := p, completion_tokens := c, total_tokens := t }
  | _, _, _ => none

/-- `Usage.toApiUsage()`. -/
def Usage.toApiUsage (u : Usage) : JValue :=
  .obj [("prompt_tokens", .int u.prompt_tokens),
        ("completion_tokens", .int u.completion_tokens),
        ("total_tokens", .int u.total_tokens)]

/-- `Message.toApiMessage()`: `{"role": ..., "content": ...}`. -/
def Message.toApiMessage (m : Message) : JValue :=
  .obj [("role", .str m.role), ("content", .str m.content)]

/-- `Response.toApiResponse()`: the serialized dict; `usage` is emitted
only when it is not the all-zero default. -/
def Response.toApiResponse (r : Response) : List (String × JValue) :=
  [("choices", .arr (r.choices.map Message.toApiMessage)),
   ("created", .int r.created),
   ("id", .str r.id),
   ("model", .str r.model),
   ("object", .str r.object_)]
  ++ (if r.usage.isDefault then [] else [("usage", r.usage.toApiUsage)])

/-- The usage computed by the inner `parseResponse` closure: the default
`Usage()` when the payload's `usage` is absent or falsy, otherwise the
parsed value with `or Usage()` as the fallback. -/
def respUsageOf (api : List (String × JValue)) : Usage :=
  if ((jget api "usage").getD .null).truthy then
    (Usage.FromApiResponse ((jget api "usage").getD .null).asObjD).getD Usage.zero
  else Usage.zero

/-- The inner `parseResponse` closure of `Response.FromApiResponse`,
applied to a dict payload. Note the source's loop body parses
`messageFromApiResponse(apiResponse)` — the whole response, not the
individual choice — so every parsed choice is a copy of the first
choice's message, and an empty `choices` list parses successfully into an
empty choice list. -/
def parseResponse (api : List (String × JValue)) : Except PyErr (Option Response) :=
  match jget api "choices", jget api "id", jget api "created",
        jget api "model", jget api "object" with
  | some (.arr cs), some (.str idA), some (.int createdA),
    some (.str modelA), some (.str objectA) =>
    if ((jget api "usage").getD .null).truthy && !((jget api "usage").getD .null).isObj then
      .ok none
    else
      match cs with
      | [] =>
        .ok (some { choices := [], created := createdA, id := idA,
                    model := modelA, object_ := objectA, usage := respUsageOf api })
      | _ :: _ =>
        match Message.FromApiResponse api with
        | .error e => .error e
        | .ok none => .ok none
        | .ok (some m) =>
          .ok (some { choices := List.replicate cs.length m, created := createdA,
                      id := idA, model := modelA, object_ := objectA,
                      usage := respUsageOf api })
  | _, _, _, _, _ => .ok none

/-- `Response.FromApiResponse` on a dict or a list payload. On a list the
inner closure still reads the captured list variable, so the presence
test is a list-membership test and a hit leads to `list[str]` indexing,
a `TypeError`; any other non-dict payload falls off the end (`None`). -/
def Response.FromApiResponse (apiResponse : JValue) : Except PyErr (Option Response) :=
  match apiResponse with
  | .obj fields => parseResponse fields
  | .arr xs =>
    if xs.length = 0 then .ok none
    else
      if jstrMem xs "choices" && jstrMem xs "id" && jstrMem xs "created"
          && jstrMem xs "model" && jstrMem xs "object" then
        .error (.typeErr "list indices must be integers or slices, not str")
      else .ok none
  | _ => .ok none

/-! ## ChatCompletionParams

The sampling controls are Python floats used only in comparisons (never
in arithmetic), so finite float values are embedded exactly as rationals.
In the typed embedding every `isinstance` check passes, so only the
range checks of `__init__` remain observable; the property setters
contain no range checks at all. -/

/-- A `(tokens, bias)` pair for `logit_bias`. -/
structure TokenSet where
  tokens : List Int
  bias : ℚ
deriving DecidableEq

/-- The stored (underscore) fields of `ChatCompletionParams`; `none`
means "unset, documented default applies". -/
structure ChatCompletionParams where
  apiKeyF : String
  modelF : String
  messagesF : List Message
  temperatureF : Option ℚ
  max_tokensF : Option Int
  top_pF : Option ℚ
  nF : Option Int
  frequency_penaltyF : Option ℚ
  presence_penaltyF : Option ℚ
  stopF : Option (List String)
  streamF : Bool
  logit_biasF : Option (List TokenSet)
  userF : Option String
deriving DecidableEq

/-- Python truthiness of an optional number (`None` and `0` are falsy). -/
def truthyQ (v : Option ℚ) : Bool :=
  match v with
  | none => false
  | some q => q ≠ 0

/-- Python truthiness of an optional integer. -/
def truthyI (v : Option Int) : Bool :=
  match v with
  | none => false
  | some n => n ≠ 0

/-- Python truthiness of an optional string list. -/
def truthyL (v : Option (List String)) : Bool :=
  match v with
  | none => false
  | some l => !l.isEmpty

/-- Python truthiness of an optional string. -/
def truthyS (v : Option String) : Bool :=
  match v with
  | none => false
  | some s => s ≠ ""

/-- `ChatCompletionParams.__init__`: each truthy argument is range-checked
in order, raising `ValueError` on violation; the assignments then go
through the property setters, which only type-check. A falsy value
(`None`, `0`, `0.0`, `[]`, `""`) skips its range check. -/
def ChatCompletionParams.make (model : String) (messages : Option (List Message))
    (temperature : Option ℚ) (max_tokens : Option Int) (top_p : Option ℚ)
    (n : Option Int) (frequency_penalty : Option ℚ) (presence_penalty : Option ℚ)
    (stop : Option (List String)) (stream : Bool) (logit_bias : Option (List TokenSet))
    (user : Option String) (apiKey : String) : Except PyErr ChatCompletionParams :=
  let messagesV := messages.getD []
  if truthyQ temperature && ((temperature.getD 0 < 0 : Bool) || (2 < temperature.getD 0 : Bool)) then
    .error (.valueErr "temperature must be a float between 0 and 2")
  else if truthyQ top_p && ((top_p.getD 0 < 0 : Bool) || (1 < top_p.getD 0 : Bool)) then
    .error (.valueErr "top_p must be a float between 0 and 1")
  else if truthyI n && ((n.getD 0 < 1 : Bool) || (10 < n.getD 0 : Bool)) then
    .error (.valueErr "n must be an int between 1 and 10")
  else if truthyQ frequency_penalty
      && ((frequency_penalty.getD 0 < -2 : Bool) || (2 < frequency_penalty.getD 0 : Bool)) then
    .error (.valueErr "frequency_penalty must be a float between -2 and 2")
  else if truthyQ presence_penalty
      && ((presence_penalty.getD 0 < -2 : Bool) || (2 < presence_penalty.getD 0 : Bool)) then
    .error (.valueErr "presence_penalty must be a float between -2 and 2")
  else if truthyL stop && decide (4 < (stop.getD []).length) then
    .error (.valueErr "stop must be a list of up to 4 strings")
  else if truthyS user && decide (256 < (user.getD "").length) then
    .error (.valueErr "user must be a string of up to 256 characters")
  else
    .ok { apiKeyF := apiKey, modelF := model, messagesF := messagesV,
          temperatureF := temperature, max_tokensF := max_tokens, top_pF := top_p,
          nF := n, frequency_penaltyF := frequency_penalty,
          presence_penaltyF := presence_penalty, stopF := stop, streamF := stream,
          logit_biasF := logit_bias, userF := user }

/-- The `temperature` property setter: `if value and not isinstance(value,
float): raise TypeError` — for a float argument the check always passes
and the value is stored unvalidated. -/
def ChatCompletionParams.temperature_set (p : ChatCompletionParams) (value : Option ℚ) :
    Except PyErr ChatCompletionParams :=
  .ok { p with temperatureF := value }

/-- The `temperature` property getter: defaults to `1.0` when unset. -/
def ChatCompletionParams.temperature (p : ChatCompletionParams) : ℚ :=
  p.temperatureF.getD 1

/-- The `n` property setter: type check only, no range check. -/
def ChatCompletionParams.n_set (p : ChatCompletionParams) (value : Option Int) :
    Except PyErr ChatCompletionParams :=
  .ok { p with nF := value }

/-- The `n` property getter: defaults to `1` when unset. -/
def ChatCompletionParams.n (p : ChatCompletionParams) : Int :=
  p.nF.getD 1

/-! ## The ChatEntry / Chat tree

Entries live in an arena (`entries`), object identity is the arena
index. `Response` objects live in their own heap (`resps`) and an entry
stores a reference into it, so Python's aliasing of the evaluate-once
default arguments is observable. An entry's prompt is stored by value:
the chat operations modelled here never share one prompt `Message`
across two entries, and `addSibling`'s in-place `prompt.content = ""`
becomes an update of the owning entry's stored prompt. -/

/-- One `ChatEntry`: prompt, a reference into the response heap, the
parent reference and the ordered child references. -/
structure ChatEntry where
  prompt : Message
  respRef : Nat
  parent : Option Nat
  children : List Nat
deriving DecidableEq, Repr

/-- Placeholder for out-of-range arena reads (never reached from a
reachable chat). -/
def dummyEntry : ChatEntry :=
  { prompt := Message.Default, respRef := 0, parent := none, children := [] }

/-- The mutable object store: the entry arena and the response heap. -/
structure PyState where
  entries : List ChatEntry
  resps : List Response
deriving DecidableEq, Repr

/-- Dereference an entry. -/
def PyState.getE (st : PyState) (i : Nat) : ChatEntry :=
  (st.entries[i]?).getD dummyEntry

/-- Dereference a response. -/
def PyState.getR (st : PyState) (r : Nat) : Response :=
  (st.resps[r]?).getD Response.Default

/-- Overwrite an entry in place. -/
def PyState.setE (st : PyState) (i : Nat) (e : ChatEntry) : PyState :=
  { st with entries := st.entries.set i e }

/-- Allocate a fresh `Response` object, returning its reference. -/
def PyState.allocR (st : PyState) (r : Response) : PyState × Nat :=
  ({ st with resps := st.resps ++ [r] }, st.resps.length)

/-- `ChatEntry.__init__` with the response reference already resolved:
the new entry is appended to the arena and, when a parent is given,
appends itself to the parent's children (the one mutation the
constructor performs on another object). -/
def PyState.newEntry (st : PyState) (prompt : Message) (respRef : Nat)
    (parent : Option Nat) : PyState × Nat :=
  let idx := st.entries.length
  let st1 : PyState :=
    { st with entries := st.entries ++ [{ prompt := prompt, respRef := respRef,
                                          parent := parent, children := [] }] }
  match parent with
  | none => (st1, idx)
  | some p =>
    (st1.setE p { st1.getE p with children := (st1.getE p).children ++ [idx] }, idx)

/-- The parent reference of the entry at `i`. -/
def parentOf (entries : List ChatEntry) (i : Nat) : Option Nat :=
  ((entries[i]?).getD dummyEntry).parent

/-- The upward parent walk of `ChatEntry.path()` before the reversal,
fuelled by the arena size (parents always have smaller indices than
their children, so the fuel suffices on well-formed states). -/
def upChain (entries : List ChatEntry) : Nat → Nat → List Nat
  | 0, i => [i]
  | fuel + 1, i =>
    match parentOf entries i with
    | none => [i]
    | some p => i :: upChain entries fuel p

/-- `ChatEntry.path()`: the reversed parent walk, root first, the entry
itself last. The root sentinel is included. -/
def PyState.pathFrom (st : PyState) (i : Nat) : List Nat :=
  (upChain st.entries st.entries.length i).reverse

/-- `ChatEntry.index()`: position in the parent's children (`0` for an
entry without a parent); `list.index` raises `ValueError` when the entry
is missing from its parent's children. -/
def PyState.entryIndex (st : PyState) (i : Nat) : Except PyErr Nat :=
  match (st.getE i).parent with
  | none => .ok 0
  | some p =>
    let cs := (st.getE p).children
    if i ∈ cs then .ok (cs.indexOf i) else .error (.valueErr "x is not in list")

/-- `ChatEntry.isDefaultContent()`. -/
def PyState.isDefaultContent (st : PyState) (i : Nat) : Bool :=
  (st.getE i).prompt.isDefault && (st.getR (st.getE i).respRef).isDefault

/-- The body of the `ChatEntry.messages()` loop: the path entry at
enumeration index `0` is skipped when it holds default content; each
remaining entry contributes its prompt and, when its response has
choices, the first choice. -/
def messagesLoop (st : PyState) : List Nat → Nat → List Message
  | [], _ => []
  | e :: rest, k =>
    let tail := messagesLoop st rest (k + 1)
    if k = 0 && st.isDefaultContent e then tail
    else
      let ent := st.getE e
      match (st.getR ent.respRef).choices with
      | [] => ent.prompt :: tail
      | ch :: _ => ent.prompt :: ch.toMessage :: tail

/-- `ChatEntry.messages()` on the entry `i`. -/
def PyState.messagesOf (st : PyState) (i : Nat) : List Message :=
  messagesLoop st (st.pathFrom i) 0

/-- The `Chat` object: the store plus the root/current/previous/cursor
references and the cached path and cursor attributes. -/
structure Chat where
  st : PyState
  rootRef : Nat
  currentRef : Nat
  previousRef : Option Nat
  cursorRef : Nat
  path : List Nat
  cursorPath : List Nat
  cursorSiblingIndex : Nat
deriving DecidableEq, Repr

/-- The response heap of the freshly imported module: the evaluate-once
default arguments of `ChatEntry.__init__`, `Chat.addSibling` and
`Chat.addDescendant`, three distinct `Response.Default()` instances
created in definition order. -/
def moduleState : PyState :=
  { entries := [], resps := [Response.Default, Response.Default, Response.Default] }

/-- Reference to the shared default response of `ChatEntry.__init__`. -/
def ceDefaultResp : Nat := 0

/-- Reference to the shared default response of `Chat.addSibling`. -/
def sibDefaultResp : Nat := 1

/-- Reference to the shared default response of `Chat.addDescendant`. -/
def descDefaultResp : Nat := 2

/-- `Chat._updateCursorAttrs()`: recompute the cursor path and sibling
index (the cursor is never `None` in the embedding, so the early return
for a `None` cursor is unreachable). -/
def Chat.updateCursorAttrs (c : Chat) : Except PyErr Chat := do
  let idx ← c.st.entryIndex c.cursorRef
  .ok { c with cursorPath := c.st.pathFrom c.cursorRef, cursorSiblingIndex := idx }

/-- `Chat.clear()`: empty the root's children, make a fresh default entry
(with a freshly constructed `Response.Default()` — passed explicitly, not
the shared default argument) the new current and cursor, and reset the
caches. -/
def Chat.clear (c : Chat) : Chat :=
  let st0 := c.st.setE c.rootRef { c.st.getE c.rootRef with children := [] }
  let (st1, r) := st0.allocR Response.Default
  let (st2, cur) := st1.newEntry Message.Default r (some c.rootRef)
  { st := st2, rootRef := c.rootRef, currentRef := cur, previousRef := none,
    cursorRef := cur, path := st2.pathFrom cur, cursorPath := st2.pathFrom cur,
    cursorSiblingIndex := 0 }

/-- `Chat()`: a default root entry (with a fresh explicit default
response), then `clear()`. -/
def Chat.start : Chat :=
  let (st1, r) := moduleState.allocR Response.Default
  let (st2, root) := st1.newEntry Message.Default r none
  Chat.clear { st := st2, rootRef := root, currentRef := root, previousRef := none,
               cursorRef := root, path := [], cursorPath := [], cursorSiblingIndex := 0 }

/-- `Chat.addDescendant(prompt, response=...)`: a `none` response stands
for an omitted argument, i.e. the shared `descDefaultResp` instance;
`some r` stands for a caller-constructed response, allocated fresh. The
new entry is a child of the cursor and becomes current and cursor. -/
def Chat.addDescendant (c : Chat) (prompt : Message) (response : Option Response) :
    Except PyErr Chat :=
  let (st0, r) :=
    match response with
    | none => (c.st, descDefaultResp)
    | some resp => c.st.allocR resp
  let (st1, newE) := st0.newEntry prompt r (some c.cursorRef)
  Chat.updateCursorAttrs
    { c with st := st1, previousRef := some c.currentRef, currentRef := newE,
             path := st1.pathFrom newE, cursorRef := newE }

/-- `Chat.addSibling(prompt, response=...)`: the superseded current
entry's prompt content is cleared and its response's `choices` attribute
is reassigned to `[]` in place (visible through every alias of that
response object); the new entry shares the cursor's parent and becomes
current and cursor. -/
def Chat.addSibling (c : Chat) (prompt : Message) (response : Option Response) :
    Except PyErr Chat :=
  let (st0, r) :=
    match response with
    | none => (c.st, sibDefaultResp)
    | some resp => c.st.allocR resp
  let curE := st0.getE c.currentRef
  let st1 := st0.setE c.currentRef { curE with prompt := { curE.prompt with content := "" } }
  let rr := (st1.getE c.currentRef).respRef
  let st2 : PyState := { st1 with resps := st1.resps.set rr { st1.getR rr with choices := [] } }
  let (st3, newE) := st2.newEntry prompt r ((st2.getE c.cursorRef).parent)
  Chat.updateCursorAttrs
    { c with st := st3, previousRef := some c.currentRef, currentRef := newE,
             path := st3.pathFrom newE, cursorRef := newE }

/-- `Chat.up()`: no-op when the cursor has no parent or its parent is the
root sentinel. -/
def Chat.up (c : Chat) : Except PyErr Chat :=
  match (c.st.getE c.cursorRef).parent with
  | none => .ok c
  | some p =>
    if p = c.rootRef then .ok c
    else Chat.updateCursorAttrs { c with cursorRef := p }

/-- The index `down()` selects: the path-continuing child's sibling
index when the cursor is on the cached path to current with more than
one child, otherwise `-1` (Python's last-element index). The path lookup
can raise `IndexError` and `index()` can raise `ValueError`. -/
def Chat.downIdx (c : Chat) : Except PyErr Int :=
  if c.cursorRef ∈ c.path ∧ (c.st.getE c.cursorRef).children.length > 1 then
    match c.path[c.path.indexOf c.cursorRef + 1]? with
    | none => .error .indexErr
    | some nxt =>
      match c.st.entryIndex nxt with
      | .error e => .error e
      | .ok k => .ok (k : Int)
  else .ok (-1)

/-- The final `self._cursor.children[downIdx]` step of `down()`: Python
list indexing with one negative wrap, raising `IndexError` out of
range. -/
def Chat.downTo (c : Chat) (downIdx : Int) : Except PyErr Chat :=
  let j : Int :=
    if downIdx < 0 then downIdx + ((c.st.getE c.cursorRef).children.length : Int) else downIdx
  if 0 ≤ j ∧ j < ((c.st.getE c.cursorRef).children.length : Int) then
    Chat.updateCursorAttrs
      { c with cursorRef := (c.st.getE c.cursorRef).children.getD j.toNat 0 }
  else .error .indexErr

/-- `Chat.down()`: no-op without children; when the cursor lies on the
cached path to current and has more than one child, the child continuing
that path is chosen, otherwise the last child (`children[-1]`). -/
def Chat.down (c : Chat) : Except PyErr Chat :=
  if (c.st.getE c.cursorRef).children.length = 0 then .ok c
  else
    match c.downIdx with
    | .error e => .error e
    | .ok k => c.downTo k

/-- `Chat.left()`: no-op at cached sibling index `0`; otherwise indexes
the parent's children at the cached index minus one (`None.children`
would be an `AttributeError`, an out-of-range index an `IndexError`). -/
def Chat.left (c : Chat) : Except PyErr Chat :=
  if c.cursorSiblingIndex = 0 then .ok c
  else
    match (c.st.getE c.cursorRef).parent with
    | none => .error .attrErr
    | some p =>
      match (c.st.getE p).children[c.cursorSiblingIndex - 1]? with
      | none => .error .indexErr
      | some ch => Chat.updateCursorAttrs { c with cursorRef := ch }

/-- `Chat.right()`: no-op without a parent or at the last cached sibling
index; otherwise indexes the parent's children at the cached index plus
one. -/
def Chat.right (c : Chat) : Except PyErr Chat :=
  match (c.st.getE c.cursorRef).parent with
  | none => .ok c
  | some p =>
    if (c.cursorSiblingIndex : Int) = ((c.st.getE p).children.length : Int) - 1 then .ok c
    else
      match (c.st.getE p).children[c.cursorSiblingIndex + 1]? with
      | none => .error .indexErr
      | some ch => Chat.updateCursorAttrs { c with cursorRef := ch }

/-- `Chat.top()`: no-op when the cursor has no parent or its parent is
the root; otherwise jumps to `self._path[0]`. -/
def Chat.top (c : Chat) : Except PyErr Chat :=
  match (c.st.getE c.cursorRef).parent with
  | none => .ok c
  | some p =>
    if p = c.rootRef then .ok c
    else
      match c.path[0]? with
      | none => .error .indexErr
      | some f => Chat.updateCursorAttrs { c with cursorRef := f }

/-- `Chat.bottom()`: no-op without children; otherwise jumps to current. -/
def Chat.bottom (c : Chat) : Except PyErr Chat :=
  if (c.st.getE c.cursorRef).children.length = 0 then .ok c
  else Chat.updateCursorAttrs { c with cursorRef := c.currentRef }

/-- `Chat.returnToCurrent()`: sets the cursor without recomputing the
cached cursor attributes. -/
def Chat.returnToCurrent (c : Chat) : Chat :=
  { c with cursorRef := c.currentRef }

/-- `Chat.isDefault()`. -/
def Chat.isDefault (c : Chat) : Bool :=
  ((c.st.getE c.currentRef).parent = some c.rootRef : Bool)
    && (c.st.getE c.currentRef).children.isEmpty
    && ((c.st.getE c.rootRef).children.length = 1 : Bool)
    && (c.st.getE c.currentRef).prompt.isDefault
    && (c.st.getR (c.st.getE c.currentRef).respRef).isDefault

/-- `Chat.canMoveUp()`. -/
def Chat.canMoveUp (c : Chat) : Bool :=
  match (c.st.getE c.cursorRef).parent with
  | none => false
  | some p => !(p = c.rootRef : Bool)

/-- `Chat.canMoveDown()`. -/
def Chat.canMoveDown (c : Chat) : Bool :=
  !(c.st.getE c.cursorRef).children.isEmpty

/-- `Chat.canMoveLeft()`. -/
def Chat.canMoveLeft (c : Chat) : Bool :=
  !(c.cursorSiblingIndex = 0 : Bool)

/-- `Chat.canMoveRight()`. -/
def Chat.canMoveRight (c : Chat) : Bool :=
  match (c.st.getE c.cursorRef).parent with
  | none => false
  | some p => !((c.cursorSiblingIndex : Int) = ((c.st.getE p).children.length : Int) - 1 : Bool)

/-- One public operation on a `Chat`. -/
inductive ChatOp where
  | addSibling (p : Message) (r : Option Response)
  | addDescendant (p : Message) (r : Option Response)
  | up
  | down
  | left
  | right
  | top
  | bottom
  | returnToCurrent
  | clear
deriving DecidableEq, Repr

/-- Apply one operation (the tree mutators and navigators can raise). -/
def Chat.apply (c : Chat) : ChatOp → Except PyErr Chat
  | .addSibling p r => c.addSibling p r
  | .addDescendant p r => c.addDescendant p r
  | .up => c.up
  | .down => c.down
  | .left => c.left
  | .right => c.right
  | .top => c.top
  | .bottom => c.bottom
  | .returnToCurrent => .ok c.returnToCurrent
  | .clear => .ok c.clear

/-- Apply a list of operations in order, stopping at the first raise. -/
def Chat.applyOps (c : Chat) : List ChatOp → Except PyErr Chat
  | [] => .ok c
  | op :: ops => do Chat.applyOps (← c.apply op) ops

/-- The chat states reachable from a freshly constructed `Chat()` by the
public operations. -/
inductive Reachable : Chat → Prop where
  | start : Reachable Chat.start
  | step {c c' : Chat} {op : ChatOp} : Reachable c → c.apply op = .ok c' → Reachable c'

/-! ## Extraction helpers and concrete scenarios -/

/-- The input-side extraction of the first choice's `content` value: the
first element of `choices`, its `delta` object if present otherwise its
`message` object, then `content`. -/
def apiFirstContent (api : List (String × JValue)) : Option JValue :=
  match jget api "choices" with
  | some (.arr (.obj ch :: _)) =>
    match jget ch "delta" with
    | some (.obj msg) => jget msg "content"
    | some _ => none
    | none =>
      match jget ch "message" with
      | some (.obj msg) => jget msg "content"
      | _ => none
  | _ => none

/-- The output-side extraction of the first choice's `content` value
(serialized choices are flat `{role, content}` objects). -/
def respFirstContent (fields : List (String × JValue)) : Option JValue :=
  match jget fields "choices" with
  | some (.arr (.obj ch :: _)) => jget ch "content"
  | _ => none

/-- A user message with the given content. -/
def usrMsg (s : String) : Message :=
  { role := "user", content := s, id := DEFAULT_ID, created := 0 }

/-- An assistant message with the given content. -/
def asstMsg (s : String) : Message :=
  { role := "assistant", content := s, id := DEFAULT_ID, created := 0 }

/-- A response whose only choice is the assistant message `"hello"`. -/
def helloResp : Response :=
  { choices := [asstMsg "hello"], created := 0, id := "", model := "",
    object_ := "", usage := Usage.zero }

/-- Run an operation sequence from a fresh chat, keeping the fresh chat
on an exception (the accompanying theorems pin the actual outcome). -/
def chatAfter (ops : List ChatOp) : Chat :=
  (Chat.applyOps Chat.start ops).toOption.getD Chat.start

/-- Scenario: one `addDescendant` on a fresh chat. -/
def oneDescOps : List ChatOp := [.addDescendant (usrMsg "hi") none]

/-- Scenario for the `down()` tie-break: build a first branch under the
initial entry, a second branch beside it, extend the first branch, then
walk the cursor back up onto the initial entry, which now has two
children with the cached path to current continuing through the first
(non-last) child. -/
def tieBreakOps : List ChatOp :=
  [.addDescendant (usrMsg "a") none, .up, .addDescendant (usrMsg "b") none,
   .left, .addDescendant (usrMsg "c") none, .up, .up]

/-- Scenario for the stale-cursor-cache exception: five siblings at the
top level, walk left to the first entry, grow a child under it, walk the
cursor to sibling index 5, `returnToCurrent()` (which does not refresh
the cached sibling index), then `left()` indexes the one-element child
list at 4. -/
def staleCacheOps : List ChatOp :=
  [.addSibling (usrMsg "m1") none, .addSibling (usrMsg "m2") none,
   .addSibling (usrMsg "m3") none, .addSibling (usrMsg "m4") none,
   .addSibling (usrMsg "m5") none,
   .left, .left, .left, .left, .left,
   .addDescendant (usrMsg "m6") none, .up,
   .right, .right, .right, .right, .right,
   .returnToCurrent, .left]

/-- Scenario 1 of the spec: two `addDescendant` calls on a fresh chat,
the first carrying the assistant response `"hello"`. -/
def scenario1Ops : List ChatOp :=
  [.addDescendant (usrMsg "hi") (some helloResp), .addDescendant (asstMsg "hello") none]

/-- A payload whose first choice's `message.content` is an integer, with
every other required field present and well-typed. -/
def badContentApi : List (String × JValue) :=
  [("id", .str "chatcmpl-1"), ("created", .int 17),
   ("choices", .arr [.obj [("message",
      .obj [("role", .str "assistant"), ("content", .int 42)])]])]

/-- A well-formed single-response payload with a non-zero usage. -/
def goodApi : List (String × JValue) :=
  [("id", .str "chatcmpl-1"), ("created", .int 17), ("model", .str "gpt-4"),
   ("object", .str "chat.completion"),
   ("choices", .arr [.obj [("message",
      .obj [("role", .str "assistant"), ("content", .str "hello")])]]),
   ("usage", .obj [("prompt_tokens", .int 3), ("completion_tokens", .int 4),
      ("total_tokens", .int 7)])]

/-- The response parsed from `goodApi`. -/
def r7 : Response :=
  ((Response.FromApiResponse (.obj goodApi)).toOption.getD none).getD Response.Default

/-- `ChatCompletionParams("gpt-4")`: every optional argument left at its
call-site default. -/
def p9base : ChatCompletionParams :=
  (ChatCompletionParams.make "gpt-4" none none none none none none none none true
      none none "").toOption.getD
    { apiKeyF := "", modelF := "", messagesF := [], temperatureF := none,
      max_tokensF := none, top_pF := none, nF := none, frequency_penaltyF := none,
      presence_penaltyF := none, stopF := none, streamF := true,
      logit_biasF := none, userF := none }

/-- The state `addSibling` reaches after clearing the superseded current
entry's prompt content, before the response clear. -/
def sibPromptState (c : Chat) (st0 : PyState) : PyState :=
  st0.setE c.currentRef
    { st0.getE c.currentRef with
      prompt := { (st0.getE c.currentRef).prompt with content := "" } }

/-- The state `addSibling` reaches after also clearing the superseded
response's choices in place. -/
def sibMidState (c : Chat) (st0 : PyState) : PyState :=
  { sibPromptState c st0 with
    resps := (sibPromptState c st0).resps.set
      ((sibPromptState c st0).getE c.currentRef).respRef
      { (sibPromptState c st0).getR ((sibPromptState c st0).getE c.currentRef).respRef
        with choices := [] } }

/-! ## Well-formedness of reachable chat states -/

/-- Parents strictly precede their children in the arena (entries are
allocated after their parents and parent links never change). -/
def StrictParent (entries : List ChatEntry) : Prop :=
  ∀ i p, parentOf entries i = some p → p < i

/-- An entry is live when it is recorded in its parent's children (the
entries orphaned by `clear()` keep their parent link but are removed
from the root's children). -/
def Live (st : PyState) (j : Nat) : Prop :=
  ∀ p, parentOf st.entries j = some p → j ∈ (st.getE p).children

/-- The store-level invariants of every reachable state. -/
structure ArenaWF (st : PyState) : Prop where
  strict : StrictParent st.entries
  coh : ∀ i j, j ∈ (st.getE i).children →
    i < j ∧ j < st.entries.length ∧ parentOf st.entries j = some i
  resp_lt : ∀ i, i < st.entries.length → (st.getE i).respRef < st.resps.length
  resps_ge : 3 ≤ st.resps.length

/-- The invariants of every reachable `Chat` state. -/
structure WF (c : Chat) : Prop where
  arena : ArenaWF c.st
  root_lt : c.rootRef < c.st.entries.length
  root_parent : parentOf c.st.entries c.rootRef = none
  current_lt : c.currentRef < c.st.entries.length
  cursor_lt : c.cursorRef < c.st.entries.length
  liveCursor : ∀ j ∈ c.st.pathFrom c.cursorRef, Live c.st j
  liveCurrent : ∀ j ∈ c.st.pathFrom c.currentRef, Live c.st j
  path_eq : c.path = c.st.pathFrom c.currentRef
  current_leaf : (c.st.getE c.currentRef).children = []

/-- Reachability transports along successful operation sequences. -/
theorem reachable_applyOps {c c' : Chat} {ops : List ChatOp} (h : Reachable c)
    (hs : c.applyOps ops = .ok c') : Reachable c' := by
  induction ops generalizing c with
  | nil =>
    simp only [Chat.applyOps, Except.ok.injEq] at hs
    exact hs ▸ h
  | cons op ops ih =>
    simp only [Chat.applyOps, bind, Except.bind] at hs
    cases happ : c.apply op with
    | error e => rw [happ] at hs; cases hs
    | ok c1 => rw [happ] at hs; exact ih (Reachable.step h happ) hs

/-! ## Concrete evaluations settling counterexamples and code bugs -/

/-- C1 (counterexample): on a fresh chat, a single `addDescendant` call
with a non-default prompt leaves `chat.current.path()` with three
entries (root sentinel, initial default entry, new entry), not one — the
path length does not equal the number of `addDescendant` calls. -/
theorem C1_counterexample :
    Chat.applyOps Chat.start oneDescOps = .ok (chatAfter oneDescOps)
      ∧ (usrMsg "hi").isDefault = false
      ∧ ((chatAfter oneDescOps).st.pathFrom (chatAfter oneDescOps).currentRef).length ≠ 1 := by
  refine ⟨rfl, rfl, ?_⟩
  decide

/-- C4 (code bug evidence): a reachable operation sequence — five
sibling edits, cursor walks, one descendant, a walk to sibling index 5,
`returnToCurrent()` and then `left()` — makes `left()` raise an
`IndexError`, because `returnToCurrent()` does not refresh the cached
sibling index. -/
theorem C4_navigation_raises :
    Chat.applyOps Chat.start staleCacheOps = .error .indexErr := by
  rfl

/-- C5 (code bug evidence): on a fresh chat followed by one
`addDescendant`, `top()` sets the cursor to the root sentinel —
`self._path[0]` is the root, because `path()` includes it — even though
the root entry is documented as never displayed. -/
theorem C5_top_reaches_root :
    Chat.applyOps Chat.start (oneDescOps ++ [.top]) = .ok (chatAfter (oneDescOps ++ [.top]))
      ∧ (chatAfter (oneDescOps ++ [.top])).cursorRef = (chatAfter (oneDescOps ++ [.top])).rootRef := by
  exact ⟨rfl, rfl⟩

/-- C6 (counterexample): in spec scenario 1, `current.path()` has length
four (root sentinel, initial default entry and the two added entries),
not two. -/
theorem C6_counterexample :
    Chat.applyOps Chat.start scenario1Ops = .ok (chatAfter scenario1Ops)
      ∧ ((chatAfter scenario1Ops).st.pathFrom (chatAfter scenario1Ops).currentRef).length ≠ 2 := by
  refine ⟨rfl, ?_⟩
  decide

/-- C6 (amended): in spec scenario 1 the path has length four and
`messages()` on the second added entry linearizes the whole path
skipping only the root sentinel: the initial default entry's empty
prompt is kept, and the assistant reply appears twice — once as the
first added entry's stored response choice and once as the second added
entry's prompt. -/
theorem C6_scenario1 :
    ((chatAfter scenario1Ops).st.pathFrom (chatAfter scenario1Ops).currentRef).length = 4
      ∧ (chatAfter scenario1Ops).st.messagesOf (chatAfter scenario1Ops).currentRef
        = [Message.Default, usrMsg "hi", asstMsg "hello", asstMsg "hello"] := by
  exact ⟨by decide, by decide⟩

/-- C10 (counterexample): the entry created by `Chat.clear()` does not
alias the default `Response` instance used by `addDescendant` — `clear`
passes a freshly constructed `Response.Default()` explicitly, so the two
entries reference distinct response objects. -/
theorem C10_counterexample :
    Chat.applyOps Chat.start oneDescOps = .ok (chatAfter oneDescOps)
      ∧ ((chatAfter oneDescOps).st.getE Chat.start.currentRef).respRef
        ≠ ((chatAfter oneDescOps).st.getE (chatAfter oneDescOps).currentRef).respRef := by
  refine ⟨rfl, ?_⟩
  decide

/-- C8 (counterexample): a payload whose required fields are all present
and well-typed apart from the first choice's `content` being an integer
makes `Message.FromApiResponse` raise a `TypeError` (from the `content`
property setter) instead of returning the absent result. -/
theorem C8_counterexample :
    Message.FromApiResponse badContentApi = .error (.typeErr "content must be a string") := by
  rfl

/-- C9 (counterexample): assigning the out-of-range value `3.0` to
`temperature` after construction succeeds — the property setter only
type-checks — and the stored temperature becomes `3`, so range
violations are not rejected at attribute-assignment time. -/
theorem C9_counterexample :
    ChatCompletionParams.make "gpt-4" none none none none none none none none true
        none none "" = .ok p9base
      ∧ ChatCompletionParams.temperature_set p9base (some 3)
        = .ok { p9base with temperatureF := some 3 }
      ∧ ChatCompletionParams.temperature { p9base with temperatureF := some 3 } = 3 := by
  exact ⟨rfl, rfl, rfl⟩

/-! ## C9: ChatCompletionParams validation -/

/-- C9 (amended): out-of-range sampling values are rejected with a
`ValueError` at construction time — except that a (falsy) `n = 0` is
silently accepted although it lies outside `[1, 10]` — while later
attribute assignment performs no range check at all, so out-of-range
assignments succeed. -/
theorem C9_validation :
    (∀ (t : ℚ) model messages max_tokens top_p n fp pp stop stream lb user apiKey,
        t < 0 ∨ 2 < t →
        ChatCompletionParams.make model messages (some t) max_tokens top_p n fp pp
            stop stream lb user apiKey
          = .error (.valueErr "temperature must be a float between 0 and 2"))
    ∧ (∀ (p : ℚ) model messages max_tokens n fp pp stop stream lb user apiKey,
        p < 0 ∨ 1 < p →
        ChatCompletionParams.make model messages none max_tokens (some p) n fp pp
            stop stream lb user apiKey
          = .error (.valueErr "top_p must be a float between 0 and 1"))
    ∧ (∀ (n : Int) model messages max_tokens fp pp stop stream lb user apiKey,
        n ≠ 0 → n < 1 ∨ 10 < n →
        ChatCompletionParams.make model messages none max_tokens none (some n) fp pp
            stop stream lb user apiKey
          = .error (.valueErr "n must be an int between 1 and 10"))
    ∧ (∀ model messages max_tokens stream lb apiKey,
        ChatCompletionParams.make model messages none max_tokens none (some 0) none none
            none stream lb none apiKey
          = .ok { apiKeyF := apiKey, modelF := model, messagesF := messages.getD [],
                  temperatureF := none, max_tokensF := max_tokens, top_pF := none,
                  nF := some 0, frequency_penaltyF := none, presence_penaltyF := none,
                  stopF := none, streamF := stream, logit_biasF := lb, userF := none })
    ∧ (∀ (f : ℚ) model messages max_tokens pp stop stream lb user apiKey,
        f < -2 ∨ 2 < f →
        ChatCompletionParams.make model messages none max_tokens none none (some f) pp
            stop stream lb user apiKey
          = .error (.valueErr "frequency_penalty must be a float between -2 and 2"))
    ∧ (∀ (p : ℚ) model messages max_tokens stop stream lb user apiKey,
        p < -2 ∨ 2 < p →
        ChatCompletionParams.make model messages none max_tokens none none none (some p)
            stop stream lb user apiKey
          = .error (.valueErr "presence_penalty must be a float between -2 and 2"))
    ∧ (∀ (l : List String) model messages max_tokens stream lb user apiKey,
        4 < l.length →
        ChatCompletionParams.make model messages none max_tokens none none none none
            (some l) stream lb user apiKey
          = .error (.valueErr "stop must be a list of up to 4 strings"))
    ∧ (∀ (s : String) model messages max_tokens stream lb apiKey,
        256 < s.length →
        ChatCompletionParams.make model messages none max_tokens none none none none
            none stream lb (some s) apiKey
          = .error (.valueErr "user must be a string of up to 256 characters"))
    ∧ (∀ p v, ChatCompletionParams.temperature_set p v = .ok { p with temperatureF := v })
    ∧ (∀ p v, ChatCompletionParams.n_set p v = .ok { p with nF := v }) := by
  refine ⟨?_, ?_, ?_, ?_, ?_, ?_, ?_, ?_, fun p v => rfl, fun p v => rfl⟩
  · intro t _ _ _ _ _ _ _ _ _ _ _ _ h
    have ht : t ≠ 0 := by
      rcases h with h | h
      · exact ne_of_lt h
      · exact ne_of_gt (lt_trans (by norm_num) h)
    rcases h with h | h <;> simp [ChatCompletionParams.make, truthyQ, ht, h]
  · intro p _ _ _ _ _ _ _ _ _ _ _ h
    have hp : p ≠ 0 := by
      rcases h with h | h
      · exact ne_of_lt h
      · exact ne_of_gt (lt_trans (by norm_num) h)
    rcases h with h | h <;> simp [ChatCompletionParams.make, truthyQ, hp, h]
  · intro n _ _ _ _ _ _ _ _ _ _ hn h
    rcases h with h | h <;>
      simp [ChatCompletionParams.make, truthyQ, truthyI, hn, h]
  · intro model messages max_tokens stream lb apiKey
    simp [ChatCompletionParams.make, truthyQ, truthyI, truthyL, truthyS]
  · intro f _ _ _ _ _ _ _ _ _ h
    have hf : f ≠ 0 := by
      rcases h with h | h
      · exact ne_of_lt (lt_trans h (by norm_num))
      · exact ne_of_gt (lt_trans (by norm_num) h)
    rcases h with h | h <;> simp [ChatCompletionParams.make, truthyQ, truthyI, hf, h]
  · intro p _ _ _ _ _ _ _ _ h
    have hp : p ≠ 0 := by
      rcases h with h | h
      · exact ne_of_lt (lt_trans h (by norm_num))
      · exact ne_of_gt (lt_trans (by norm_num) h)
    rcases h with h | h <;> simp [ChatCompletionParams.make, truthyQ, truthyI, hp, h]
  · intro l _ _ _ _ _ _ _ h
    have hl : l.isEmpty = false := by
      cases l with
      | nil => simp at h
      | cons a l => rfl
    simp [ChatCompletionParams.make, truthyQ, truthyI, truthyL, truthyS, hl, h]
  · intro s _ _ _ _ _ _ h
    have hs : s ≠ "" := by
      intro hcon
      rw [hcon] at h
      simp at h
    simp [ChatCompletionParams.make, truthyQ, truthyI, truthyL, truthyS, hs, h]

/-- C9 (witness): the amended theorem at concrete inputs — temperature
`3.0` is rejected at construction, `n = 0` slips through, and a setter
assignment of `3.0` succeeds. -/
theorem C9_witness :
    ((3 : ℚ) < 0 ∨ 2 < (3 : ℚ))
      ∧ ChatCompletionParams.make "gpt-4" none (some 3) none none none none none none
          true none none ""
        = .error (.valueErr "temperature must be a float between 0 and 2")
      ∧ ChatCompletionParams.make "gpt-4" none none none none (some 0) none none none
          true none none ""
        = .ok { apiKeyF := "", modelF := "gpt-4", messagesF := (none : Option (List Message)).getD [],
                temperatureF := none, max_tokensF := none, top_pF := none,
                nF := some 0, frequency_penaltyF := none, presence_penaltyF := none,
                stopF := none, streamF := true, logit_biasF := none, userF := none }
      ∧ ChatCompletionParams.temperature_set p9base (some 3)
        = .ok { p9base with temperatureF := some 3 } := by
  have h3 : (3 : ℚ) < 0 ∨ 2 < (3 : ℚ) := Or.inr (by norm_num)
  refine ⟨h3, ?_, ?_, ?_⟩
  · exact C9_validation.1 3 "gpt-4" none none none none none none none true none none "" h3
  · exact C9_validation.2.2.2.1 "gpt-4" none none true none ""
  · exact (C9_validation.2.2.2.2.2.2.2.2.1) p9base (some 3)

/-! ## C8: parse failures of Message.FromApiResponse -/

/-- C8 (amended): every structural failure — `choices` missing, not a
list or empty, `id` missing or not a string, `created` missing or not an
integer, a first choice that is not an object or has neither `message`
nor `delta`, a `message`/`delta` value that is not an object, a missing
`content`, or a missing `role` on a `message` — yields the absent result
without raising, and the empty or invalid-first-chunk streamed batch
folds to the absent result; but a `content` value that is present and
not a string raises a `TypeError` through the `Message` constructor, and
a chunk that raises propagates the raise through the fold. -/
theorem C8_parse_failures :
    (∀ api, jget api "choices" = none → Message.FromApiResponse api = .ok none)
    ∧ (∀ api v, jget api "choices" = some v → v.isArr = false →
        Message.FromApiResponse api = .ok none)
    ∧ (∀ api, jget api "choices" = some (.arr []) → Message.FromApiResponse api = .ok none)
    ∧ (∀ api, jget api "id" = none → Message.FromApiResponse api = .ok none)
    ∧ (∀ api v, jget api "id" = some v → v.isStr = false →
        Message.FromApiResponse api = .ok none)
    ∧ (∀ api, jget api "created" = none → Message.FromApiResponse api = .ok none)
    ∧ (∀ api v, jget api "created" = some v → v.isInt = false →
        Message.FromApiResponse api = .ok none)
    ∧ (∀ api c rest, jget api "choices" = some (.arr (c :: rest)) → c.isObj = false →
        Message.FromApiResponse api = .ok none)
    ∧ (∀ api ch rest, jget api "choices" = some (.arr (.obj ch :: rest)) →
        jget ch "delta" = none → jget ch "message" = none →
        Message.FromApiResponse api = .ok none)
    ∧ (∀ api ch rest v, jget api "choices" = some (.arr (.obj ch :: rest)) →
        jget ch "delta" = some v → v.isObj = false →
        Message.FromApiResponse api = .ok none)
    ∧ (∀ api ch rest v, jget api "choices" = some (.arr (.obj ch :: rest)) →
        jget ch "delta" = none → jget ch "message" = some v → v.isObj = false →
        Message.FromApiResponse api = .ok none)
    ∧ (∀ api ch rest m, jget api "choices" = some (.arr (.obj ch :: rest)) →
        jget ch "delta" = none → jget ch "message" = some (.obj m) →
        jget m "content" = none →
        Message.FromApiResponse api = .ok none)
    ∧ (∀ api ch rest m, jget api "choices" = some (.arr (.obj ch :: rest)) →
        jget ch "delta" = none → jget ch "message" = some (.obj m) →
        jget m "role" = none →
        Message.FromApiResponse api = .ok none)
    ∧ (∀ api ch m rest i t r v, jget api "choices" = some (.arr (.obj ch :: rest)) →
        jget api "id" = some (.str i) → jget api "created" = some (.int t) →
        jget ch "delta" = none → jget ch "message" = some (.obj m) →
        jget m "role" = some (.str r) → jget m "content" = some v → v.isStr = false →
        Message.FromApiResponse api = .error (.typeErr "content must be a string"))
    ∧ StreamingMessage.FromApiResponses [] = .ok none
    ∧ (∀ a rest, StreamingMessage.FromApiResponse a = .ok none →
        StreamingMessage.FromApiResponses (a :: rest) = .ok none)
    ∧ (∀ a rest e, StreamingMessage.FromApiResponse a = .error e →
        StreamingMessage.FromApiResponses (a :: rest) = .error e) := by
  refine ⟨?_, ?_, ?_, ?_, ?_, ?_, ?_, ?_, ?_, ?_, ?_, ?_, ?_, ?_, rfl, ?_, ?_⟩
  · intro api h
    unfold Message.FromApiResponse
    rw [h]
  · intro api v h hv
    unfold Message.FromApiResponse
    rw [h]
    split <;> simp_all [JValue.isArr]
  · intro api h
    unfold Message.FromApiResponse
    rw [h]
    split <;> simp_all
  · intro api h
    unfold Message.FromApiResponse
    rw [h]
    split <;> simp_all
  · intro api v h hv
    unfold Message.FromApiResponse
    rw [h]
    split <;> simp_all [JValue.isStr]
  · intro api h
    unfold Message.FromApiResponse
    rw [h]
    split <;> simp_all
  · intro api v h hv
    unfold Message.FromApiResponse
    rw [h]
    split <;> simp_all [JValue.isInt]
  · intro api c rest h hc
    unfold Message.FromApiResponse
    rw [h]
    split
    all_goals try rfl
    rename_i cs id created heq1 heq2 heq3
    simp only [Option.some.injEq, JValue.arr.injEq] at heq1
    subst heq1
    cases c <;> simp_all [JValue.isObj]
  · intro api ch rest h h4 h5
    unfold Message.FromApiResponse
    rw [h]
    split
    all_goals try rfl
    rename_i cs id created heq1 heq2 heq3
    simp only [Option.some.injEq, JValue.arr.injEq] at heq1
    subst heq1
    simp [h4, h5]
  · intro api ch rest v h h4 hv
    unfold Message.FromApiResponse
    rw [h]
    split
    all_goals try rfl
    rename_i cs id created heq1 heq2 heq3
    simp only [Option.some.injEq, JValue.arr.injEq] at heq1
    subst heq1
    cases v <;> simp_all [JValue.isObj]
  · intro api ch rest v h h4 h5 hv
    unfold Message.FromApiResponse
    rw [h]
    split
    all_goals try rfl
    rename_i cs id created heq1 heq2 heq3
    simp only [Option.some.injEq, JValue.arr.injEq] at heq1
    subst heq1
    cases v <;> simp_all [JValue.isObj]
  · intro api ch rest m h h4 h5 h6
    unfold Message.FromApiResponse
    rw [h]
    split
    all_goals try rfl
    rename_i cs id created heq1 heq2 heq3
    simp only [Option.some.injEq, JValue.arr.injEq] at heq1
    subst heq1
    simp [h4, h5, h6]
  · intro api ch rest m h h4 h5 h6
    unfold Message.FromApiResponse
    rw [h]
    split
    all_goals try rfl
    rename_i cs id created heq1 heq2 heq3
    simp only [Option.some.injEq, JValue.arr.injEq] at heq1
    subst heq1
    simp [h4, h5, h6]
  · intro api ch m rest i t r v h1 h2 h3 h4 h5 h6 h7 hv
    simp only [Message.FromApiResponse, h1, h2, h3, h4, h5, h6, h7]
    cases v <;> simp_all [JValue.isStr, mkMessage, Except.map]
  · intro a rest h
    simp [StreamingMessage.FromApiResponses, StreamingMessage.foldChunks, h, bind, Except.bind]
  · intro a rest e h
    simp [StreamingMessage.FromApiResponses, StreamingMessage.foldChunks, h, bind, Except.bind]

/-- C8 (witness): the parse-failure theorem at concrete payloads — a
payload without `choices` parses to the absent result, the
integer-content payload raises, and a one-chunk batch without `choices`
folds to the absent result. -/
theorem C8_witness :
    Message.FromApiResponse [("id", .str "x")] = .ok none
      ∧ Message.FromApiResponse badContentApi
        = .error (.typeErr "content must be a string")
      ∧ StreamingMessage.FromApiResponses [[("id", .str "x")]] = .ok none := by
  refine ⟨?_, ?_, ?_⟩
  · exact C8_parse_failures.1 [("id", .str "x")] rfl
  · exact C8_parse_failures.2.2.2.2.2.2.2.2.2.2.2.2.2.1 badContentApi
      [("message", .obj [("role", .str "assistant"), ("content", .int 42)])]
      [("role", .str "assistant"), ("content", .int 42)] [] "chatcmpl-1" 17 "assistant"
      (.int 42) rfl rfl rfl rfl rfl rfl rfl rfl
  · exact C8_parse_failures.2.2.2.2.2.2.2.2.2.2.2.2.2.2.2.1 [("id", .str "x")] [] rfl

/-! ## C7: Response round-trip -/

/-- Inversion of a successful `Message.FromApiResponse`: the parsed
message's content is the first choice's content value, and id/created
come from the payload. -/
theorem msgFromApi_ok (api : List (String × JValue)) (m : Message)
    (h : Message.FromApiResponse api = .ok (some m)) :
    apiFirstContent api = some (.str m.content)
      ∧ jget api "id" = some (.str m.id)
      ∧ jget api "created" = some (.int m.created) := by
  unfold Message.FromApiResponse at h
  split at h
  case h_2 => cases h
  rename_i cs id created heq1 heq2 heq3
  split at h
  case h_1 => cases h
  rename_i choice tail
  split at h
  case h_2 => cases h
  rename_i ch
  split at h
  case h_1 d hd =>
    split at h
    case h_2 => cases h
    rename_i msg
    split at h
    case h_2 => cases h
    rename_i content hcontent
    cases content
    case str c =>
      simp only [show mkMessage (.str "assistant") (.str c) id created
          = .ok { role := "assistant", content := c, id := id, created := created } from rfl,
        Except.map, Except.ok.injEq, Option.some.injEq] at h
      subst h
      refine ⟨?_, heq2, heq3⟩
      simp [apiFirstContent, heq1, hd, hcontent]
    all_goals exact Except.noConfusion h
  case h_2 hd =>
    split at h
    case h_2 => cases h
    case h_3 => cases h
    rename_i msg hmsg
    split at h
    case h_2 => cases h
    rename_i role content hrole hcontent
    cases role
    case str r =>
      cases content
      case str c =>
        simp only [show mkMessage (.str r) (.str c) id created
            = .ok { role := r, content := c, id := id, created := created } from rfl,
          Except.map, Except.ok.injEq, Option.some.injEq] at h
        subst h
        refine ⟨?_, heq2, heq3⟩
        simp [apiFirstContent, heq1, hd, hmsg, hcontent]
      all_goals exact Except.noConfusion h
    all_goals exact Except.noConfusion h

/-- Serialization puts the response id under "id". -/
theorem toApi_id (r : Response) :
    jget (Response.toApiResponse r) "id" = some (.str r.id) := by
  simp [Response.toApiResponse, jget]

/-- Serialization puts the creation time under "created". -/
theorem toApi_created (r : Response) :
    jget (Response.toApiResponse r) "created" = some (.int r.created) := by
  simp [Response.toApiResponse, jget]

/-- Serialization puts the model under "model". -/
theorem toApi_model (r : Response) :
    jget (Response.toApiResponse r) "model" = some (.str r.model) := by
  simp [Response.toApiResponse, jget]

/-- Serialization emits "usage" exactly when it is not the default. -/
theorem toApi_usage (r : Response) :
    jget (Response.toApiResponse r) "usage"
      = if r.usage.isDefault then none else some r.usage.toApiUsage := by
  cases hd : r.usage.isDefault <;> simp [Response.toApiResponse, jget, hd]

/-- Serialization puts the first choice content under the flat choice
object. -/
theorem toApi_firstContent (r : Response) (m : Message) (ms : List Message)
    (h : r.choices = m :: ms) :
    respFirstContent (Response.toApiResponse r) = some (.str m.content) := by
  simp [respFirstContent, Response.toApiResponse, jget, h, Message.toApiMessage]

/-- A serialized usage re-parses to itself. -/
theorem usage_roundtrip (u : Usage) :
    Usage.FromApiResponse u.toApiUsage.asObjD = some u := by
  rfl

/-- Absent usage parses to the default usage. -/
theorem respUsage_none (api : List (String × JValue)) (h : jget api "usage" = none) :
    respUsageOf api = Usage.zero := by
  simp [respUsageOf, h, JValue.truthy]

/-- Falsy usage parses to the default usage. -/
theorem respUsage_falsy (api : List (String × JValue)) (uv : JValue)
    (h : jget api "usage" = some uv) (ht : uv.truthy = false) :
    respUsageOf api = Usage.zero := by
  simp [respUsageOf, h, ht]

/-- Truthy well-formed usage parses to its value. -/
theorem respUsage_parsed (api : List (String × JValue)) (uv : JValue) (u : Usage)
    (h : jget api "usage" = some uv) (ht : uv.truthy = true)
    (hp : Usage.FromApiResponse uv.asObjD = some u) :
    respUsageOf api = u := by
  simp [respUsageOf, h, ht, hp]

/-- C7: for every payload accepted by the parsing rules, serializing the
parsed response preserves the `id`, `created` and `model` fields and the
first choice's content, and the usage value round-trips exactly when it
is non-zero while an all-zero or absent usage is omitted from the
serialized form. -/
theorem C7_round_trip (api : List (String × JValue)) (resp : Response)
    (h : Response.FromApiResponse (.obj api) = .ok (some resp)) :
    jget (Response.toApiResponse resp) "id" = jget api "id"
      ∧ jget (Response.toApiResponse resp) "created" = jget api "created"
      ∧ jget (Response.toApiResponse resp) "model" = jget api "model"
      ∧ (resp.choices ≠ [] →
          respFirstContent (Response.toApiResponse resp) = apiFirstContent api)
      ∧ (jget api "usage" = none → jget (Response.toApiResponse resp) "usage" = none)
      ∧ (∀ uv, jget api "usage" = some uv → uv.truthy = false →
          jget (Response.toApiResponse resp) "usage" = none)
      ∧ (∀ uv u, jget api "usage" = some uv → uv.truthy = true →
          Usage.FromApiResponse uv.asObjD = some u →
          (u.isDefault = false →
            jget (Response.toApiResponse resp) "usage" = some u.toApiUsage
              ∧ Usage.FromApiResponse u.toApiUsage.asObjD = some u)
            ∧ (u.isDefault = true → jget (Response.toApiResponse resp) "usage" = none)) := by
  replace h : parseResponse api = .ok (some resp) := h
  unfold parseResponse at h
  split at h
  case h_2 => cases h
  rename_i cs idA createdA modelA objectA heqC heqI heqCr heqM heqO
  split at h
  case isTrue => cases h
  rename_i husageGuard
  split at h
  case h_1 =>
    simp only [Except.ok.injEq, Option.some.injEq] at h
    subst h
    refine ⟨by rw [toApi_id, heqI], by rw [toApi_created, heqCr], by rw [toApi_model, heqM],
      ?_, ?_, ?_, ?_⟩
    · intro hne
      simp at hne
    · intro hn
      rw [toApi_usage]
      simp [respUsage_none api hn, show Usage.zero.isDefault = true from rfl]
    · intro uv huv ht
      rw [toApi_usage]
      simp [respUsage_falsy api uv huv ht, show Usage.zero.isDefault = true from rfl]
    · intro uv u huv ht hp
      constructor
      · intro hnd
        rw [toApi_usage]
        simp only [respUsage_parsed api uv u huv ht hp, hnd]
        exact ⟨rfl, usage_roundtrip u⟩
      · intro hd
        rw [toApi_usage]
        simp [respUsage_parsed api uv u huv ht hp, hd]
  case h_2 c rest =>
    split at h
    case h_1 => cases h
    case h_2 => cases h
    case h_3 m hm =>
      simp only [Except.ok.injEq, Option.some.injEq] at h
      subst h
      refine ⟨by rw [toApi_id, heqI], by rw [toApi_created, heqCr], by rw [toApi_model, heqM],
        ?_, ?_, ?_, ?_⟩
      · intro _
        rw [toApi_firstContent _ m (List.replicate rest.length m) (by simp [List.replicate_succ])]
        exact (msgFromApi_ok api m hm).1.symm
      · intro hn
        rw [toApi_usage]
        simp [respUsage_none api hn, show Usage.zero.isDefault = true from rfl]
      · intro uv huv ht
        rw [toApi_usage]
        simp [respUsage_falsy api uv huv ht, show Usage.zero.isDefault = true from rfl]
      · intro uv u huv ht hp
        constructor
        · intro hnd
          rw [toApi_usage]
          simp only [respUsage_parsed api uv u huv ht hp, hnd]
          exact ⟨rfl, usage_roundtrip u⟩
        · intro hd
          rw [toApi_usage]
          simp [respUsage_parsed api uv u huv ht hp, hd]

/-- C7 (witness): the round-trip theorem at the concrete `goodApi`
payload, whose usage is non-zero. -/
theorem C7_witness :
    Response.FromApiResponse (.obj goodApi) = .ok (some r7)
      ∧ jget (Response.toApiResponse r7) "id" = jget goodApi "id"
      ∧ jget (Response.toApiResponse r7) "created" = jget goodApi "created"
      ∧ respFirstContent (Response.toApiResponse r7) = apiFirstContent goodApi
      ∧ jget (Response.toApiResponse r7) "usage"
        = some (Usage.toApiUsage { prompt_tokens := 3, completion_tokens := 4,
                                   total_tokens := 7 }) := by
  have hc := C7_round_trip goodApi r7 rfl
  refine ⟨rfl, hc.1, hc.2.1, hc.2.2.2.1 (by decide), ?_⟩
  exact ((hc.2.2.2.2.2.2 (.obj [("prompt_tokens", .int 3), ("completion_tokens", .int 4),
      ("total_tokens", .int 7)])
    { prompt_tokens := 3, completion_tokens := 4, total_tokens := 7 }
    rfl rfl rfl).1 rfl).1

/-! ## Parent-walk lemmas -/

/-- A parent walk starts at its argument. -/
theorem upChain_head (entries : List ChatEntry) (fuel i : Nat) :
    (upChain entries fuel i).head? = some i := by
  cases fuel with
  | zero => rfl
  | succ f =>
    cases hp : parentOf entries i <;> simp [upChain, hp]

/-- A parent walk is never empty. -/
theorem upChain_ne_nil (entries : List ChatEntry) (fuel i : Nat) :
    upChain entries fuel i ≠ [] := by
  intro h
  have := upChain_head entries fuel i
  rw [h] at this
  cases this

/-- Every element of a parent walk is bounded by the start. -/
theorem upChain_mem_le (entries : List ChatEntry) (hsp : StrictParent entries) :
    ∀ fuel i j, j ∈ upChain entries fuel i → j ≤ i := by
  intro fuel
  induction fuel with
  | zero =>
    intro i j hj
    simp [upChain] at hj
    omega
  | succ f ih =>
    intro i j hj
    cases hp : parentOf entries i with
    | none =>
      rw [upChain, hp] at hj
      simp at hj
      omega
    | some p =>
      rw [upChain, hp] at hj
      rcases List.mem_cons.1 hj with rfl | hj
      · exact le_rfl
      · exact le_trans (ih p j hj) (le_of_lt (hsp i p hp))

/-- Once the fuel exceeds the start index, the walk no longer depends on
the fuel. -/
theorem upChain_fuel_irrel (entries : List ChatEntry) (hsp : StrictParent entries) :
    ∀ i f₁ f₂, i < f₁ → i < f₂ → upChain entries f₁ i = upChain entries f₂ i := by
  intro i
  induction i using Nat.strong_induction_on with
  | _ i ih =>
    intro f₁ f₂ h₁ h₂
    cases f₁ with
    | zero => omega
    | succ g₁ =>
      cases f₂ with
      | zero => omega
      | succ g₂ =>
        cases hp : parentOf entries i with
        | none => rw [upChain, hp, upChain, hp]
        | some p =>
          have hpi := hsp i p hp
          rw [upChain, hp, upChain, hp]
          exact congrArg (fun l => i :: l) (ih p hpi g₁ g₂ (by omega) (by omega))

/-- A parent walk is linked by parent references. -/
theorem upChain_chain (entries : List ChatEntry) :
    ∀ fuel i, List.Chain' (fun a b => parentOf entries a = some b) (upChain entries fuel i) := by
  intro fuel
  induction fuel with
  | zero => intro i; simp [upChain]
  | succ f ih =>
    intro i
    cases hp : parentOf entries i with
    | none => rw [upChain, hp]; simp
    | some p =>
      rw [upChain, hp]
      show List.Chain' (fun a b => parentOf entries a = some b) (i :: upChain entries f p)
      refine List.Chain'.cons' (ih p) ?_
      intro y hy
      rw [upChain_head entries f p] at hy
      cases hy
      exact hp

/-- A parent walk is strictly decreasing. -/
theorem upChain_pairwise (entries : List ChatEntry) (hsp : StrictParent entries) :
    ∀ fuel i, List.Pairwise (· > ·) (upChain entries fuel i) := by
  intro fuel
  induction fuel with
  | zero => intro i; simp [upChain]
  | succ f ih =>
    intro i
    cases hp : parentOf entries i with
    | none => rw [upChain, hp]; simp
    | some p =>
      rw [upChain, hp]
      show List.Pairwise (· > ·) (i :: upChain entries f p)
      refine List.pairwise_cons.2 ⟨?_, ih p⟩
      intro j hj
      exact lt_of_le_of_lt (upChain_mem_le entries hsp f p j hj) (hsp i p hp)

/-- The tail of a cons list keeps its last element. -/
theorem getLast?_cons_ne {α : Type _} (a : α) (l : List α) (h : l ≠ []) :
    (a :: l).getLast? = l.getLast? := by
  cases l with
  | nil => cases h rfl
  | cons b bs => exact List.getLast?_cons_cons

/-- With sufficient fuel, a parent walk ends at an entry without a
parent. -/
theorem upChain_last_parent (entries : List ChatEntry) (hsp : StrictParent entries) :
    ∀ fuel i, i < fuel → ∃ t, (upChain entries fuel i).getLast? = some t
      ∧ parentOf entries t = none := by
  intro fuel
  induction fuel with
  | zero => intro i h; omega
  | succ f ih =>
    intro i hi
    cases hp : parentOf entries i with
    | none => exact ⟨i, by rw [upChain, hp]; rfl, hp⟩
    | some p =>
      obtain ⟨t, hlast, hnone⟩ := ih p (lt_of_lt_of_le (hsp i p hp) (by omega))
      refine ⟨t, ?_, hnone⟩
      rw [upChain, hp]
      show (i :: upChain entries f p).getLast? = some t
      rw [getLast?_cons_ne i _ (upChain_ne_nil entries f p), hlast]

/-- The walk is unchanged when the parent references agree below the
start. -/
theorem upChain_congr (entries entries' : List ChatEntry) (hsp : StrictParent entries) :
    ∀ fuel i, (∀ j, j ≤ i → parentOf entries' j = parentOf entries j) →
      upChain entries' fuel i = upChain entries fuel i := by
  intro fuel
  induction fuel with
  | zero => intro i _; rfl
  | succ f ih =>
    intro i hagree
    rw [upChain, upChain, hagree i le_rfl]
    cases hp : parentOf entries i with
    | none => rfl
    | some p =>
      exact congrArg (fun l => i :: l)
        (ih p fun j hj => hagree j (le_trans hj (le_of_lt (hsp i p hp))))

/-! ## Path lemmas -/

/-- A path ends at its entry. -/
theorem pathFrom_getLast (st : PyState) (i : Nat) :
    (st.pathFrom i).getLast? = some i := by
  rw [PyState.pathFrom, List.getLast?_reverse]
  exact upChain_head st.entries st.entries.length i

/-- A path is never empty. -/
theorem pathFrom_ne_nil (st : PyState) (i : Nat) : st.pathFrom i ≠ [] := by
  intro h
  exact upChain_ne_nil st.entries st.entries.length i (by
    have := congrArg List.reverse h
    simpa [PyState.pathFrom] using this)

/-- Path elements are bounded by the entry. -/
theorem pathFrom_mem_le (st : PyState) (hsp : StrictParent st.entries) (i j : Nat)
    (hj : j ∈ st.pathFrom i) : j ≤ i :=
  upChain_mem_le st.entries hsp st.entries.length i j (List.mem_reverse.1 hj)

/-- A path is linked: each element after the first is a child (by parent
reference) of its predecessor. -/
theorem pathFrom_chain (st : PyState) (i : Nat) :
    List.Chain' (fun a b => parentOf st.entries b = some a) (st.pathFrom i) := by
  rw [PyState.pathFrom, List.chain'_reverse]
  exact upChain_chain st.entries st.entries.length i

/-- A path has no duplicates. -/
theorem pathFrom_nodup (st : PyState) (hsp : StrictParent st.entries) (i : Nat) :
    (st.pathFrom i).Nodup := by
  rw [PyState.pathFrom, List.nodup_reverse]
  exact (upChain_pairwise st.entries hsp st.entries.length i).imp fun h => ne_of_gt h

/-- A path of an in-range entry starts at an entry without a parent. -/
theorem pathFrom_head_parent (st : PyState) (hsp : StrictParent st.entries) (i : Nat)
    (hi : i < st.entries.length) :
    ∃ t, (st.pathFrom i).head? = some t ∧ parentOf st.entries t = none := by
  rw [PyState.pathFrom, List.head?_reverse]
  exact upChain_last_parent st.entries hsp st.entries.length i hi

/-- A parentless entry's path is the singleton. -/
theorem pathFrom_none (st : PyState) (i : Nat) (hp : parentOf st.entries i = none) :
    st.pathFrom i = [i] := by
  rw [PyState.pathFrom]
  cases hl : st.entries.length with
  | zero => rfl
  | succ f => rw [upChain, hp, List.reverse_singleton]

/-- The path of a child is its parent's path extended by the child. -/
theorem pathFrom_step (st : PyState) (hsp : StrictParent st.entries) (i p : Nat)
    (hp : parentOf st.entries i = some p) (hi : i < st.entries.length) :
    st.pathFrom i = st.pathFrom p ++ [i] := by
  have hpi := hsp i p hp
  rw [PyState.pathFrom, PyState.pathFrom]
  cases hl : st.entries.length with
  | zero => omega
  | succ f =>
    rw [upChain, hp]
    show (i :: upChain st.entries f p).reverse = (upChain st.entries (f + 1) p).reverse ++ [i]
    rw [List.reverse_cons, upChain_fuel_irrel st.entries hsp p f (f + 1) (by omega) (by omega)]

/-! ## Arena update lemmas -/

/-- The parent reference is the stored field. -/
theorem parentOf_getE (st : PyState) (j : Nat) :
    parentOf st.entries j = (st.getE j).parent := rfl

/-- `setE` leaves other entries alone. -/
theorem setE_getE_ne (st : PyState) (i : Nat) (e : ChatEntry) (j : Nat) (hne : j ≠ i) :
    (st.setE i e).getE j = st.getE j := by
  simp [PyState.setE, PyState.getE, List.getElem?_set_ne (Ne.symm hne)]

/-- `setE` stores the entry. -/
theorem setE_getE_self (st : PyState) (i : Nat) (e : ChatEntry) (hi : i < st.entries.length) :
    (st.setE i e).getE i = e := by
  simp [PyState.setE, PyState.getE, List.getElem?_set_self hi]

/-- `setE` preserves the arena size. -/
theorem setE_length (st : PyState) (i : Nat) (e : ChatEntry) :
    (st.setE i e).entries.length = st.entries.length := by
  simp [PyState.setE]

/-- The allocated index of a new entry. -/
theorem newEntry_snd (st : PyState) (m : Message) (r : Nat) (par : Option Nat) :
    (st.newEntry m r par).2 = st.entries.length := by
  cases par <;> rfl

/-- A new entry with a parent grows the arena by one. -/
theorem newEntry_some_length (st : PyState) (m : Message) (r q : Nat) :
    (st.newEntry m r (some q)).1.entries.length = st.entries.length + 1 := by
  simp [PyState.newEntry, PyState.setE]

/-- A new entry leaves the response heap alone. -/
theorem newEntry_resps (st : PyState) (m : Message) (r : Nat) (par : Option Nat) :
    (st.newEntry m r par).1.resps = st.resps := by
  cases par <;> rfl

/-- Entries other than the parent are untouched by the construction. -/
theorem newEntry_some_getE_old (st : PyState) (m : Message) (r q : Nat)
    (j : Nat) (hj : j < st.entries.length) (hne : j ≠ q) :
    (st.newEntry m r (some q)).1.getE j = st.getE j := by
  simp only [PyState.newEntry, PyState.setE, PyState.getE]
  rw [List.getElem?_set_ne (Ne.symm hne), List.getElem?_append_left hj]

/-- The parent gains the new index at the end of its children. -/
theorem newEntry_some_getE_parent (st : PyState) (m : Message) (r q : Nat)
    (hq : q < st.entries.length) :
    (st.newEntry m r (some q)).1.getE q
      = { st.getE q with children := (st.getE q).children ++ [st.entries.length] } := by
  simp only [PyState.newEntry, PyState.setE, PyState.getE]
  rw [List.getElem?_set_self (by simp; omega), List.getElem?_append_left hq]
  rfl

/-- The new entry is stored at the fresh index. -/
theorem newEntry_some_getE_new (st : PyState) (m : Message) (r q : Nat)
    (hq : q < st.entries.length) :
    (st.newEntry m r (some q)).1.getE st.entries.length
      = { prompt := m, respRef := r, parent := some q, children := [] } := by
  simp only [PyState.newEntry, PyState.setE, PyState.getE]
  rw [List.getElem?_set_ne (by omega), List.getElem?_concat_length]
  rfl

/-- A parentless new entry only appends. -/
theorem newEntry_none_getE_old (st : PyState) (m : Message) (r : Nat)
    (j : Nat) (hj : j < st.entries.length) :
    (st.newEntry m r none).1.getE j = st.getE j := by
  simp only [PyState.newEntry, PyState.getE]
  rw [List.getElem?_append_left hj]

/-- The parentless new entry is stored at the fresh index. -/
theorem newEntry_none_getE_new (st : PyState) (m : Message) (r : Nat) :
    (st.newEntry m r none).1.getE st.entries.length
      = { prompt := m, respRef := r, parent := none, children := [] } := by
  simp only [PyState.newEntry, PyState.getE]
  rw [List.getElem?_concat_length]
  rfl

/-- A parentless new entry grows the arena by one. -/
theorem newEntry_none_length (st : PyState) (m : Message) (r : Nat) :
    (st.newEntry m r none).1.entries.length = st.entries.length + 1 := by
  simp [PyState.newEntry]

/-- Paths agree across states whose parent references agree below the
entry. -/
theorem pathFrom_congr (st st' : PyState) (hsp : StrictParent st.entries)
    (hsp' : StrictParent st'.entries) (i : Nat) (hi : i < st.entries.length)
    (hi' : i < st'.entries.length)
    (hagree : ∀ j, j ≤ i → parentOf st'.entries j = parentOf st.entries j) :
    st'.pathFrom i = st.pathFrom i := by
  unfold PyState.pathFrom
  rw [upChain_fuel_irrel st'.entries hsp' i st'.entries.length (i + 1) hi' (by omega),
    upChain_congr st.entries st'.entries hsp (i + 1) i hagree,
    upChain_fuel_irrel st.entries hsp i (i + 1) st.entries.length (by omega) hi]

/-! ## Construction-step invariance -/

/-- Out-of-range reads give the placeholder. -/
theorem getE_oob (st : PyState) (j : Nat) (hj : st.entries.length ≤ j) :
    st.getE j = dummyEntry := by
  simp [PyState.getE, List.getElem?_eq_none hj]

/-- Construction with a parent changes no parent reference except the
fresh index. -/
theorem newEntry_some_parentOf (st : PyState) (m : Message) (r q : Nat)
    (hq : q < st.entries.length) (j : Nat) (hj : j ≠ st.entries.length) :
    parentOf (st.newEntry m r (some q)).1.entries j = parentOf st.entries j := by
  rcases lt_or_ge j st.entries.length with hlt | hge
  · rcases eq_or_ne j q with rfl | hne
    · rw [parentOf_getE, parentOf_getE, newEntry_some_getE_parent st m r j hq]
    · rw [parentOf_getE, parentOf_getE, newEntry_some_getE_old st m r q j hlt hne]
  · have hge' : st.entries.length < j := by omega
    rw [parentOf_getE, parentOf_getE, getE_oob st j hge,
      getE_oob _ j (by rw [newEntry_some_length]; omega)]

/-- The fresh entry's parent reference. -/
theorem newEntry_some_parentOf_new (st : PyState) (m : Message) (r q : Nat)
    (hq : q < st.entries.length) :
    parentOf (st.newEntry m r (some q)).1.entries st.entries.length = some q := by
  rw [parentOf_getE, newEntry_some_getE_new st m r q hq]

/-- Parentless construction changes no parent reference except the fresh
index. -/
theorem newEntry_none_parentOf (st : PyState) (m : Message) (r : Nat)
    (j : Nat) (hj : j ≠ st.entries.length) :
    parentOf (st.newEntry m r none).1.entries j = parentOf st.entries j := by
  rcases lt_or_ge j st.entries.length with hlt | hge
  · rw [parentOf_getE, parentOf_getE, newEntry_none_getE_old st m r j hlt]
  · have hge' : st.entries.length < j := by omega
    rw [parentOf_getE, parentOf_getE, getE_oob st j hge,
      getE_oob _ j (by rw [newEntry_none_length]; omega)]

/-- The parentless fresh entry's parent reference. -/
theorem newEntry_none_parentOf_new (st : PyState) (m : Message) (r : Nat) :
    parentOf (st.newEntry m r none).1.entries st.entries.length = none := by
  rw [parentOf_getE, newEntry_none_getE_new st m r]

/-- Construction only appends to children lists. -/
theorem newEntry_children_mono (st : PyState) (m : Message) (r : Nat) (q : Option Nat)
    (hq : ∀ x, q = some x → x < st.entries.length) (i j : Nat)
    (hj : j ∈ (st.getE i).children) :
    j ∈ ((st.newEntry m r q).1.getE i).children := by
  cases q with
  | none =>
    rcases lt_or_ge i st.entries.length with hlt | hge
    · rw [newEntry_none_getE_old st m r i hlt]; exact hj
    · rw [getE_oob st i hge] at hj; cases hj
  | some x =>
    have hx := hq x rfl
    rcases lt_or_ge i st.entries.length with hlt | hge
    · rcases eq_or_ne i x with rfl | hne
      · rw [newEntry_some_getE_parent st m r i hx]
        exact List.mem_append_left _ hj
      · rw [newEntry_some_getE_old st m r x i hlt hne]; exact hj
    · rw [getE_oob st i hge] at hj; cases hj

/-- Construction preserves the store invariants. -/
theorem arena_newEntry (st : PyState) (ha : ArenaWF st) (m : Message) (r : Nat)
    (q : Option Nat) (hr : r < st.resps.length)
    (hq : ∀ x, q = some x → x < st.entries.length) :
    ArenaWF (st.newEntry m r q).1 := by
  have hlen : (st.newEntry m r q).1.entries.length = st.entries.length + 1 := by
    cases q with
    | none => exact newEntry_none_length st m r
    | some x => exact newEntry_some_length st m r x
  have hresps : (st.newEntry m r q).1.resps = st.resps := newEntry_resps st m r q
  have hparent : ∀ j, j ≠ st.entries.length →
      parentOf (st.newEntry m r q).1.entries j = parentOf st.entries j := by
    intro j hj
    cases q with
    | none => exact newEntry_none_parentOf st m r j hj
    | some x => exact newEntry_some_parentOf st m r x (hq x rfl) j hj
  have hpnew : parentOf (st.newEntry m r q).1.entries st.entries.length = q := by
    cases q with
    | none => exact newEntry_none_parentOf_new st m r
    | some x => exact newEntry_some_parentOf_new st m r x (hq x rfl)
  refine ⟨?_, ?_, ?_, ?_⟩
  · intro i p hp
    rcases eq_or_ne i st.entries.length with heq | hne
    · subst heq
      rw [hpnew] at hp
      exact hq p hp
    · rw [hparent i hne] at hp
      exact ha.strict i p hp
  · intro i j hj
    have hchild_new : ((st.newEntry m r q).1.getE st.entries.length).children = [] := by
      cases q with
      | none => rw [newEntry_none_getE_new]
      | some x => rw [newEntry_some_getE_new st m r x (hq x rfl)]
    rcases eq_or_ne i st.entries.length with heq | hine
    · subst heq
      rw [hchild_new] at hj
      cases hj
    rcases lt_or_ge i (st.newEntry m r q).1.entries.length with hilt | hige
    swap
    · rw [getE_oob _ i hige] at hj; cases hj
    have hilt' : i < st.entries.length := by omega
    cases q with
    | none =>
      rw [newEntry_none_getE_old st m r i hilt'] at hj
      obtain ⟨h1, h2, h3⟩ := ha.coh i j hj
      exact ⟨h1, by omega, by rw [hparent j (by omega)]; exact h3⟩
    | some x =>
      have hx := hq x rfl
      rcases eq_or_ne i x with heq2 | hix
      · subst heq2
        rw [newEntry_some_getE_parent st m r i hx] at hj
        simp only [List.mem_append, List.mem_singleton] at hj
        rcases hj with hj | heq3
        · obtain ⟨h1, h2, h3⟩ := ha.coh i j hj
          exact ⟨h1, by omega, by rw [hparent j (by omega)]; exact h3⟩
        · subst heq3
          exact ⟨hx, by omega, hpnew⟩
      · rw [newEntry_some_getE_old st m r x i hilt' hix] at hj
        obtain ⟨h1, h2, h3⟩ := ha.coh i j hj
        exact ⟨h1, by omega, by rw [hparent j (by omega)]; exact h3⟩
  · intro i hi
    rw [hresps]
    rcases eq_or_ne i st.entries.length with heq | hne
    · subst heq
      have hgr : ((st.newEntry m r q).1.getE st.entries.length).respRef = r := by
        cases q with
        | none => rw [newEntry_none_getE_new]
        | some x => rw [newEntry_some_getE_new st m r x (hq x rfl)]
      rw [hgr]; exact hr
    · have hilt : i < st.entries.length := by rw [hlen] at hi; omega
      have hgr : ((st.newEntry m r q).1.getE i).respRef = (st.getE i).respRef := by
        cases q with
        | none => rw [newEntry_none_getE_old st m r i hilt]
        | some x =>
          rcases eq_or_ne i x with heq2 | hix
          · subst heq2
            rw [newEntry_some_getE_parent st m r i (hq i rfl)]
          · rw [newEntry_some_getE_old st m r x i hilt hix]
      rw [hgr]
      exact ha.resp_lt i hilt
  · rw [hresps]; exact ha.resps_ge

/-- Allocating a response preserves the store invariants. -/
theorem arena_allocR (st : PyState) (ha : ArenaWF st) (r : Response) :
    ArenaWF (st.allocR r).1 := by
  refine ⟨ha.strict, ha.coh, ?_, ?_⟩
  · intro i hi
    have h1 : (st.allocR r).1.getE i = st.getE i := rfl
    have h2 : (st.allocR r).1.entries.length = st.entries.length := rfl
    rw [h1]
    have := ha.resp_lt i (by rw [h2] at hi; exact hi)
    simp only [PyState.allocR, List.length_append, List.length_singleton]
    omega
  · have := ha.resps_ge
    simp only [PyState.allocR, List.length_append, List.length_singleton]
    omega

/-- Overwriting an entry without touching its parent link or response
reference, and only shrinking its children, preserves the store
invariants. -/
theorem arena_setE (st : PyState) (ha : ArenaWF st) (i : Nat) (e : ChatEntry)
    (hi : i < st.entries.length)
    (hp : e.parent = (st.getE i).parent)
    (hr : e.respRef = (st.getE i).respRef)
    (hc : ∀ j, j ∈ e.children → j ∈ (st.getE i).children) :
    ArenaWF (st.setE i e) := by
  have hparent : ∀ j, parentOf (st.setE i e).entries j = parentOf st.entries j := by
    intro j
    rcases eq_or_ne j i with heq | hne
    · subst heq
      rw [parentOf_getE, setE_getE_self st j e hi, hp, parentOf_getE]
    · rw [parentOf_getE, setE_getE_ne st i e j hne, parentOf_getE]
  have hchild : ∀ a j, j ∈ ((st.setE i e).getE a).children → j ∈ (st.getE a).children := by
    intro a j hj
    rcases eq_or_ne a i with heq | hne
    · subst heq
      rw [setE_getE_self st a e hi] at hj
      exact hc j hj
    · rw [setE_getE_ne st i e a hne] at hj
      exact hj
  refine ⟨?_, ?_, ?_, ?_⟩
  · intro a p hpa
    rw [hparent a] at hpa
    exact ha.strict a p hpa
  · intro a j hj
    obtain ⟨h1, h2, h3⟩ := ha.coh a j (hchild a j hj)
    rw [setE_length]
    exact ⟨h1, h2, by rw [hparent j]; exact h3⟩
  · intro a hla
    rw [setE_length] at hla
    have hrr : ((st.setE i e).getE a).respRef = (st.getE a).respRef := by
      rcases eq_or_ne a i with heq | hne
      · subst heq
        rw [setE_getE_self st a e hi, hr]
      · rw [setE_getE_ne st i e a hne]
    rw [hrr]
    exact ha.resp_lt a hla
  · exact ha.resps_ge

/-- Overwriting a response cell preserves the store invariants. -/
theorem arena_setResp (st : PyState) (ha : ArenaWF st) (rr : Nat) (x : Response) :
    ArenaWF { st with resps := st.resps.set rr x } := by
  refine ⟨ha.strict, ha.coh, ?_, ?_⟩
  · intro i hi
    have := ha.resp_lt i hi
    simpa [List.length_set] using this
  · have := ha.resps_ge
    simpa [List.length_set] using this

/-- `_updateCursorAttrs` succeeds exactly when the entry index is
computable, and only refreshes the caches. -/
theorem updateCursorAttrs_ok (c : Chat) {c' : Chat}
    (h : Chat.updateCursorAttrs c = .ok c') :
    ∃ idx, c.st.entryIndex c.cursorRef = .ok idx
      ∧ c' = { c with cursorPath := c.st.pathFrom c.cursorRef, cursorSiblingIndex := idx } := by
  unfold Chat.updateCursorAttrs at h
  cases he : c.st.entryIndex c.cursorRef with
  | error e =>
    rw [he] at h
    cases h
  | ok idx =>
    rw [he] at h
    simp only [bind, Except.bind, Except.ok.injEq] at h
    exact ⟨idx, rfl, h.symm⟩

/-- `index()` succeeds on a live entry. -/
theorem entryIndex_ok_of_live (st : PyState) (i : Nat) (hlive : Live st i) :
    ∃ k, st.entryIndex i = .ok k := by
  unfold PyState.entryIndex
  cases hp : (st.getE i).parent with
  | none => exact ⟨0, rfl⟩
  | some p =>
    have hmem : i ∈ (st.getE p).children := hlive p hp
    exact ⟨(st.getE p).children.indexOf i, by simp [hmem]⟩

/-- Moving the cursor to an in-range entry with a live chain preserves
well-formedness through `_updateCursorAttrs`. -/
theorem wf_cursorMove (c : Chat) (hwf : WF c) (x : Nat) (hx : x < c.st.entries.length)
    (hlive : ∀ j ∈ c.st.pathFrom x, Live c.st j) {c' : Chat}
    (h : Chat.updateCursorAttrs { c with cursorRef := x } = .ok c') : WF c' := by
  obtain ⟨idx, _, rfl⟩ := updateCursorAttrs_ok _ h
  exact { arena := hwf.arena, root_lt := hwf.root_lt, root_parent := hwf.root_parent,
          current_lt := hwf.current_lt, cursor_lt := hx,
          liveCursor := hlive, liveCurrent := hwf.liveCurrent,
          path_eq := hwf.path_eq, current_leaf := hwf.current_leaf }

/-- The chain above a cursor's parent is live. -/
theorem liveChain_parent (c : Chat) (hwf : WF c) (p : Nat)
    (hp : (c.st.getE c.cursorRef).parent = some p) :
    p < c.st.entries.length ∧ ∀ j ∈ c.st.pathFrom p, Live c.st j := by
  have hp' : parentOf c.st.entries c.cursorRef = some p := hp
  have hplt : p < c.cursorRef := hwf.arena.strict _ _ hp'
  have hstep := pathFrom_step c.st hwf.arena.strict c.cursorRef p hp' hwf.cursor_lt
  refine ⟨lt_trans hplt hwf.cursor_lt, ?_⟩
  intro j hj
  exact hwf.liveCursor j (by rw [hstep]; exact List.mem_append_left _ hj)

/-- The chain above any child of an entry with a live chain is live. -/
theorem liveChain_child (c : Chat) (hwf : WF c) (x ch : Nat)
    (hlx : ∀ j ∈ c.st.pathFrom x, Live c.st j) (hch : ch ∈ (c.st.getE x).children) :
    ch < c.st.entries.length ∧ ∀ j ∈ c.st.pathFrom ch, Live c.st j := by
  obtain ⟨hxlt, hlt, hpar⟩ := hwf.arena.coh x ch hch
  have hstep := pathFrom_step c.st hwf.arena.strict ch x hpar hlt
  refine ⟨hlt, ?_⟩
  intro j hj
  rw [hstep] at hj
  rcases List.mem_append.1 hj with hj | hj
  · exact hlx j hj
  · rw [List.mem_singleton] at hj
    subst hj
    intro p hp
    rw [hpar] at hp
    cases hp
    exact hch

/-- The first element of the cached path is a parentless in-range entry
with a live (singleton) chain. -/
theorem liveChain_top (c : Chat) (hwf : WF c) (f : Nat) (hf : c.path[0]? = some f) :
    f < c.st.entries.length ∧ ∀ j ∈ c.st.pathFrom f, Live c.st j := by
  rw [hwf.path_eq] at hf
  obtain ⟨t, hhead, hnone⟩ :=
    pathFrom_head_parent c.st hwf.arena.strict c.currentRef hwf.current_lt
  have hft : f = t := by
    rw [← List.head?_eq_getElem?] at hf
    rw [hf] at hhead
    cases hhead
    rfl
  subst hft
  have hmem : f ∈ c.st.pathFrom c.currentRef := List.getElem?_mem hf
  refine ⟨lt_of_le_of_lt (pathFrom_mem_le c.st hwf.arena.strict _ _ hmem) hwf.current_lt, ?_⟩
  intro j hj
  rw [pathFrom_none c.st f hnone, List.mem_singleton] at hj
  subst hj
  intro p hp
  rw [hnone] at hp
  cases hp

/-- Indexing inside the bounds lands in the list. -/
theorem getD_mem_of_lt {l : List Nat} {k : Nat} (hk : k < l.length) (d : Nat) :
    l.getD k d ∈ l := by
  rw [List.getD_eq_getElem?_getD, List.getElem?_eq_getElem hk]
  exact List.getElem_mem hk

/-! ## Navigation preserves well-formedness -/

/-- `up()` preserves well-formedness. -/
theorem wf_up {c c' : Chat} (hwf : WF c) (h : c.up = .ok c') : WF c' := by
  unfold Chat.up at h
  split at h
  next =>
    cases h
    exact hwf
  next p heq =>
    split at h
    next =>
      cases h
      exact hwf
    next hroot =>
      obtain ⟨hplt, hlive⟩ := liveChain_parent c hwf p heq
      exact wf_cursorMove c hwf p hplt hlive h

/-- `left()` preserves well-formedness. -/
theorem wf_left {c c' : Chat} (hwf : WF c) (h : c.left = .ok c') : WF c' := by
  unfold Chat.left at h
  split at h
  next =>
    cases h
    exact hwf
  next hidx =>
    split at h
    next => cases h
    next p heq =>
      split at h
      next => cases h
      next ch hch =>
        obtain ⟨hplt, hlivep⟩ := liveChain_parent c hwf p heq
        obtain ⟨hchlt, hlivech⟩ :=
          liveChain_child c hwf p ch hlivep (List.getElem?_mem hch)
        exact wf_cursorMove c hwf ch hchlt hlivech h

/-- `right()` preserves well-formedness. -/
theorem wf_right {c c' : Chat} (hwf : WF c) (h : c.right = .ok c') : WF c' := by
  unfold Chat.right at h
  split at h
  next =>
    cases h
    exact hwf
  next p heq =>
    split at h
    next =>
      cases h
      exact hwf
    next hlast =>
      split at h
      next => cases h
      next ch hch =>
        obtain ⟨hplt, hlivep⟩ := liveChain_parent c hwf p heq
        obtain ⟨hchlt, hlivech⟩ :=
          liveChain_child c hwf p ch hlivep (List.getElem?_mem hch)
        exact wf_cursorMove c hwf ch hchlt hlivech h

/-- `top()` preserves well-formedness. -/
theorem wf_top {c c' : Chat} (hwf : WF c) (h : c.top = .ok c') : WF c' := by
  unfold Chat.top at h
  split at h
  next =>
    cases h
    exact hwf
  next p heq =>
    split at h
    next =>
      cases h
      exact hwf
    next hroot =>
      split at h
      next => cases h
      next f hf =>
        obtain ⟨hflt, hlive⟩ := liveChain_top c hwf f hf
        exact wf_cursorMove c hwf f hflt hlive h

/-- `bottom()` preserves well-formedness. -/
theorem wf_bottom {c c' : Chat} (hwf : WF c) (h : c.bottom = .ok c') : WF c' := by
  unfold Chat.bottom at h
  split at h
  next =>
    cases h
    exact hwf
  next =>
    exact wf_cursorMove c hwf c.currentRef hwf.current_lt hwf.liveCurrent h

/-- `returnToCurrent()` preserves well-formedness. -/
theorem wf_returnToCurrent {c : Chat} (hwf : WF c) : WF c.returnToCurrent :=
  { arena := hwf.arena, root_lt := hwf.root_lt, root_parent := hwf.root_parent,
    current_lt := hwf.current_lt, cursor_lt := hwf.current_lt,
    liveCursor := hwf.liveCurrent, liveCurrent := hwf.liveCurrent,
    path_eq := hwf.path_eq, current_leaf := hwf.current_leaf }

/-- `downTo` preserves well-formedness. -/
theorem wf_downTo {c c' : Chat} (hwf : WF c) (k : Int) (h : c.downTo k = .ok c') : WF c' := by
  unfold Chat.downTo at h
  have core : ∀ (jv : Int),
      (if 0 ≤ jv ∧ jv < ((c.st.getE c.cursorRef).children.length : Int) then
        Chat.updateCursorAttrs
          { c with cursorRef := (c.st.getE c.cursorRef).children.getD jv.toNat 0 }
      else .error .indexErr) = .ok c' → WF c' := by
    intro jv hh
    split at hh
    next hrange =>
      have hjn : jv.toNat < (c.st.getE c.cursorRef).children.length := by omega
      have hmem := getD_mem_of_lt hjn 0
      obtain ⟨hchlt, hlivech⟩ :=
        liveChain_child c hwf c.cursorRef _ hwf.liveCursor hmem
      exact wf_cursorMove c hwf _ hchlt hlivech hh
    next => cases hh
  split at h
  next => exact core _ h
  next => exact core _ h

/-- `down()` preserves well-formedness. -/
theorem wf_down {c c' : Chat} (hwf : WF c) (h : c.down = .ok c') : WF c' := by
  unfold Chat.down at h
  split at h
  next =>
    cases h
    exact hwf
  next =>
    split at h
    next => cases h
    next k hk => exact wf_downTo hwf k h

/-! ## The mutators preserve well-formedness -/

/-- Core lemma for `addDescendant`/`addSibling`: constructing a new
entry on a store that agrees with the chat's arena, and making it the
new current and cursor, yields a well-formed chat; the new entry's
response reference and path shape are pinned. -/
theorem newCurrent_wf (c : Chat) (hwf : WF c) (st0 : PyState) (prompt : Message) (r : Nat)
    (q : Option Nat)
    (hent : st0.entries = c.st.entries)
    (ha0 : ArenaWF st0)
    (hr : r < st0.resps.length)
    (hqc : q = none ∨ ∃ x, q = some x ∧ x < c.st.entries.length
        ∧ ∀ j ∈ c.st.pathFrom x, Live c.st j)
    {c' : Chat}
    (h : Chat.updateCursorAttrs
        { c with st := (st0.newEntry prompt r q).1,
                 previousRef := some c.currentRef,
                 currentRef := (st0.newEntry prompt r q).2,
                 path := (st0.newEntry prompt r q).1.pathFrom (st0.newEntry prompt r q).2,
                 cursorRef := (st0.newEntry prompt r q).2 } = .ok c') :
    WF c'
      ∧ c'.rootRef = c.rootRef
      ∧ c'.currentRef = c.st.entries.length
      ∧ c'.cursorRef = c.st.entries.length
      ∧ c'.st.entries.length = c.st.entries.length + 1
      ∧ (∀ x, q = some x → c'.path = c.st.pathFrom x ++ [c.st.entries.length])
      ∧ (q = none → c'.path = [c.st.entries.length])
      ∧ (c'.st.getE c.st.entries.length).respRef = r
      ∧ (∀ i, i < c.st.entries.length → (c'.st.getE i).respRef = (st0.getE i).respRef)
      ∧ c'.st.resps = st0.resps := by
  have hn0 : st0.entries.length = c.st.entries.length := by rw [hent]
  have hge : ∀ j, st0.getE j = c.st.getE j := by
    intro j
    rw [PyState.getE, PyState.getE, hent]
  have hpe : ∀ j, parentOf st0.entries j = parentOf c.st.entries j := by
    intro j
    rw [hent]
  have hpf : ∀ j, st0.pathFrom j = c.st.pathFrom j := by
    intro j
    rw [PyState.pathFrom, PyState.pathFrom, hent]
  have hq' : ∀ x, q = some x → x < st0.entries.length := by
    intro x hx
    rcases hqc with rfl | ⟨y, hy, hylt, _⟩
    · cases hx
    · rw [hy] at hx
      cases hx
      omega
  have ha1 : ArenaWF (st0.newEntry prompt r q).1 := arena_newEntry st0 ha0 prompt r q hr hq'
  have hsnd : (st0.newEntry prompt r q).2 = c.st.entries.length := by
    rw [newEntry_snd, hn0]
  have hlen1 : (st0.newEntry prompt r q).1.entries.length = c.st.entries.length + 1 := by
    cases q with
    | none => rw [newEntry_none_length, hn0]
    | some x => rw [newEntry_some_length, hn0]
  have hpnew : parentOf (st0.newEntry prompt r q).1.entries st0.entries.length = q := by
    cases q with
    | none => exact newEntry_none_parentOf_new st0 prompt r
    | some x => exact newEntry_some_parentOf_new st0 prompt r x (hq' x rfl)
  have hparent : ∀ j, j ≠ st0.entries.length →
      parentOf (st0.newEntry prompt r q).1.entries j = parentOf st0.entries j := by
    intro j hj
    cases q with
    | none => exact newEntry_none_parentOf st0 prompt r j hj
    | some x => exact newEntry_some_parentOf st0 prompt r x (hq' x rfl) j hj
  have hgnew : (st0.newEntry prompt r q).1.getE st0.entries.length
      = { prompt := prompt, respRef := r, parent := q, children := [] } := by
    cases q with
    | none => exact newEntry_none_getE_new st0 prompt r
    | some x => exact newEntry_some_getE_new st0 prompt r x (hq' x rfl)
  have hpath1n : q = none →
      (st0.newEntry prompt r q).1.pathFrom st0.entries.length = [st0.entries.length] := by
    intro hq0
    subst hq0
    exact pathFrom_none _ st0.entries.length (by rw [hpnew])
  have hpath1s : ∀ x, q = some x →
      (st0.newEntry prompt r q).1.pathFrom st0.entries.length
        = c.st.pathFrom x ++ [st0.entries.length] := by
    intro x hq0
    subst hq0
    have hx := hq' x rfl
    rw [pathFrom_step _ ha1.strict st0.entries.length x (by rw [hpnew]) (by omega)]
    have hagree : ∀ j, j ≤ x →
        parentOf (st0.newEntry prompt r (some x)).1.entries j = parentOf c.st.entries j := by
      intro j hj
      rw [hparent j (by omega), hpe j]
    rw [pathFrom_congr c.st (st0.newEntry prompt r (some x)).1 hwf.arena.strict ha1.strict x
      (by omega) (by omega) hagree]
  have hlx : ∀ x, q = some x → ∀ j ∈ c.st.pathFrom x, Live c.st j := by
    intro x hx
    rcases hqc with hnone | ⟨y, hy, hylt, hly⟩
    · rw [hnone] at hx
      cases hx
    · rw [hy] at hx
      cases hx
      exact hly
  have hlive1 : ∀ j ∈ (st0.newEntry prompt r q).1.pathFrom st0.entries.length,
      Live (st0.newEntry prompt r q).1 j := by
    intro j hj
    cases q with
    | none =>
      rw [hpath1n rfl] at hj
      simp only [List.mem_singleton] at hj
      subst hj
      intro p hp
      rw [hpnew] at hp
      cases hp
    | some x =>
      rw [hpath1s x rfl] at hj
      rcases List.mem_append.1 hj with hj | hj
      · have hjx : j ≤ x := pathFrom_mem_le c.st hwf.arena.strict x j hj
        have hx := hq' x rfl
        have hlj : Live c.st j := hlx x rfl j hj
        intro p hp
        rw [hparent j (by omega), hpe j] at hp
        have hmem := hlj p hp
        have hmem0 : j ∈ (st0.getE p).children := by rw [hge p]; exact hmem
        exact newEntry_children_mono st0 prompt r (some x) hq' p j hmem0
      · simp only [List.mem_singleton] at hj
        subst hj
        intro p hp
        rw [hpnew] at hp
        have hpx : p = x := (Option.some.inj hp).symm
        subst hpx
        rw [newEntry_some_getE_parent st0 prompt r p (hq' p rfl)]
        exact List.mem_append_right _ (List.mem_singleton.2 rfl)
  obtain ⟨idx, hidx, rfl⟩ := updateCursorAttrs_ok _ h
  refine ⟨⟨ha1, ?_, ?_, ?_, ?_, ?_, ?_, rfl, ?_⟩, rfl, hsnd, hsnd, hlen1, ?_, ?_, ?_, ?_,
    newEntry_resps st0 prompt r q⟩
  · show c.rootRef < (st0.newEntry prompt r q).1.entries.length
    rw [hlen1]
    have := hwf.root_lt
    omega
  · show parentOf (st0.newEntry prompt r q).1.entries c.rootRef = none
    rw [hparent c.rootRef (by have := hwf.root_lt; omega), hpe]
    exact hwf.root_parent
  · show (st0.newEntry prompt r q).2 < (st0.newEntry prompt r q).1.entries.length
    rw [hsnd, hlen1]
    omega
  · show (st0.newEntry prompt r q).2 < (st0.newEntry prompt r q).1.entries.length
    rw [hsnd, hlen1]
    omega
  · show ∀ j ∈ (st0.newEntry prompt r q).1.pathFrom (st0.newEntry prompt r q).2,
      Live (st0.newEntry prompt r q).1 j
    rw [newEntry_snd]
    exact hlive1
  · show ∀ j ∈ (st0.newEntry prompt r q).1.pathFrom (st0.newEntry prompt r q).2,
      Live (st0.newEntry prompt r q).1 j
    rw [newEntry_snd]
    exact hlive1
  · show ((st0.newEntry prompt r q).1.getE (st0.newEntry prompt r q).2).children = []
    rw [newEntry_snd, hgnew]
  · intro x hx
    show (st0.newEntry prompt r q).1.pathFrom (st0.newEntry prompt r q).2
      = c.st.pathFrom x ++ [c.st.entries.length]
    rw [newEntry_snd, hpath1s x hx, hn0]
  · intro hx
    show (st0.newEntry prompt r q).1.pathFrom (st0.newEntry prompt r q).2
      = [c.st.entries.length]
    rw [newEntry_snd, hpath1n hx, hn0]
  · show ((st0.newEntry prompt r q).1.getE c.st.entries.length).respRef = r
    rw [← hn0, hgnew]
  · intro i hi
    show ((st0.newEntry prompt r q).1.getE i).respRef = (st0.getE i).respRef
    cases q with
    | none => rw [newEntry_none_getE_old st0 prompt r i (by omega)]
    | some x =>
      rcases eq_or_ne i x with heq | hne
      · subst heq
        rw [newEntry_some_getE_parent st0 prompt r i (hq' i rfl)]
      · rw [newEntry_some_getE_old st0 prompt r x i (by omega) hne]

/-- `_updateCursorAttrs` succeeds on a live cursor. -/
theorem updateCursorAttrs_succeeds (c : Chat) (hlive : Live c.st c.cursorRef) :
    ∃ c', Chat.updateCursorAttrs c = .ok c' := by
  obtain ⟨k, hk⟩ := entryIndex_ok_of_live c.st c.cursorRef hlive
  refine ⟨{ c with cursorPath := c.st.pathFrom c.cursorRef, cursorSiblingIndex := k }, ?_⟩
  unfold Chat.updateCursorAttrs
  rw [hk]
  rfl

/-- `addDescendant` always succeeds on a well-formed chat: the fresh
entry becomes current and cursor, the cached path extends the cursor's
path, and the response reference is the shared `addDescendant` default
(for an omitted argument) or a fresh heap cell. -/
theorem addDescendant_spec (c : Chat) (hwf : WF c) (prompt : Message)
    (response : Option Response) :
    ∃ c', c.addDescendant prompt response = .ok c'
      ∧ WF c'
      ∧ c'.rootRef = c.rootRef
      ∧ c'.currentRef = c.st.entries.length
      ∧ c'.cursorRef = c.st.entries.length
      ∧ c'.st.entries.length = c.st.entries.length + 1
      ∧ c'.path = c.st.pathFrom c.cursorRef ++ [c.st.entries.length]
      ∧ (c'.st.getE c.st.entries.length).respRef
          = (match response with
            | none => descDefaultResp
            | some _ => c.st.resps.length)
      ∧ (∀ i, i < c.st.entries.length → (c'.st.getE i).respRef = (c.st.getE i).respRef) := by
  cases response with
  | none =>
    have hqc : (some c.cursorRef) = none ∨ ∃ x, (some c.cursorRef) = some x
        ∧ x < c.st.entries.length ∧ ∀ j ∈ c.st.pathFrom x, Live c.st j :=
      Or.inr ⟨c.cursorRef, rfl, hwf.cursor_lt, hwf.liveCursor⟩
    have hr : descDefaultResp < c.st.resps.length := by
      have := hwf.arena.resps_ge
      unfold descDefaultResp
      omega
    have hlivenew : Live (c.st.newEntry prompt descDefaultResp (some c.cursorRef)).1
        (c.st.newEntry prompt descDefaultResp (some c.cursorRef)).2 := by
      intro p hp
      rw [newEntry_snd] at hp ⊢
      rw [newEntry_some_parentOf_new c.st prompt descDefaultResp c.cursorRef hwf.cursor_lt]
        at hp
      cases hp
      rw [newEntry_some_getE_parent c.st prompt descDefaultResp c.cursorRef hwf.cursor_lt]
      exact List.mem_append_right _ (List.mem_singleton.2 rfl)
    obtain ⟨c', hok⟩ := updateCursorAttrs_succeeds
      { c with st := (c.st.newEntry prompt descDefaultResp (some c.cursorRef)).1,
               previousRef := some c.currentRef,
               currentRef := (c.st.newEntry prompt descDefaultResp (some c.cursorRef)).2,
               path := (c.st.newEntry prompt descDefaultResp (some c.cursorRef)).1.pathFrom
                 (c.st.newEntry prompt descDefaultResp (some c.cursorRef)).2,
               cursorRef := (c.st.newEntry prompt descDefaultResp (some c.cursorRef)).2 }
      hlivenew
    obtain ⟨hwf', hroot, hcur, hcurs, hlen, hpaths, hpathn, hresp, hrespold, hresps⟩ :=
      newCurrent_wf c hwf c.st prompt descDefaultResp (some c.cursorRef) rfl hwf.arena hr
        hqc hok
    exact ⟨c', hok, hwf', hroot, hcur, hcurs, hlen, hpaths c.cursorRef rfl, hresp,
      fun i hi => hrespold i hi⟩
  | some resp =>
    have hqc : (some c.cursorRef) = none ∨ ∃ x, (some c.cursorRef) = some x
        ∧ x < c.st.entries.length ∧ ∀ j ∈ c.st.pathFrom x, Live c.st j :=
      Or.inr ⟨c.cursorRef, rfl, hwf.cursor_lt, hwf.liveCursor⟩
    have hent : (c.st.allocR resp).1.entries = c.st.entries := rfl
    have hr : (c.st.allocR resp).2 < (c.st.allocR resp).1.resps.length := by
      show c.st.resps.length < (c.st.resps ++ [resp]).length
      simp
    have hlivenew : Live ((c.st.allocR resp).1.newEntry prompt (c.st.allocR resp).2
        (some c.cursorRef)).1
        ((c.st.allocR resp).1.newEntry prompt (c.st.allocR resp).2 (some c.cursorRef)).2 := by
      intro p hp
      rw [newEntry_snd] at hp ⊢
      rw [newEntry_some_parentOf_new (c.st.allocR resp).1 prompt (c.st.allocR resp).2
        c.cursorRef
        (show c.cursorRef < (c.st.allocR resp).1.entries.length from hwf.cursor_lt)] at hp
      cases hp
      rw [newEntry_some_getE_parent (c.st.allocR resp).1 prompt (c.st.allocR resp).2
        c.cursorRef
        (show c.cursorRef < (c.st.allocR resp).1.entries.length from hwf.cursor_lt)]
      exact List.mem_append_right _ (List.mem_singleton.2 rfl)
    obtain ⟨c', hok⟩ := updateCursorAttrs_succeeds
      { c with st := ((c.st.allocR resp).1.newEntry prompt (c.st.allocR resp).2
                 (some c.cursorRef)).1,
               previousRef := some c.currentRef,
               currentRef := ((c.st.allocR resp).1.newEntry prompt (c.st.allocR resp).2
                 (some c.cursorRef)).2,
               path := ((c.st.allocR resp).1.newEntry prompt (c.st.allocR resp).2
                 (some c.cursorRef)).1.pathFrom
                   ((c.st.allocR resp).1.newEntry prompt (c.st.allocR resp).2
                     (some c.cursorRef)).2,
               cursorRef := ((c.st.allocR resp).1.newEntry prompt (c.st.allocR resp).2
                 (some c.cursorRef)).2 }
      hlivenew
    obtain ⟨hwf', hroot, hcur, hcurs, hlen, hpaths, hpathn, hresp, hrespold, hresps⟩ :=
      newCurrent_wf c hwf (c.st.allocR resp).1 prompt (c.st.allocR resp).2 (some c.cursorRef)
        hent (arena_allocR c.st hwf.arena resp) hr hqc hok
    exact ⟨c', hok, hwf', hroot, hcur, hcurs, hlen, hpaths c.cursorRef rfl, hresp,
      fun i hi => hrespold i hi⟩

/-- `setE` with the same parent field changes no parent reference. -/
theorem setE_parentOf_eq (st : PyState) (i : Nat) (e : ChatEntry)
    (hi : i < st.entries.length) (hp : e.parent = (st.getE i).parent) :
    ∀ j, parentOf (st.setE i e).entries j = parentOf st.entries j := by
  intro j
  rcases eq_or_ne j i with heq | hne
  · subst heq
    rw [parentOf_getE, setE_getE_self st j e hi, hp, parentOf_getE]
  · rw [parentOf_getE, setE_getE_ne st i e j hne, parentOf_getE]

/-- `setE` with the same children field changes no children list. -/
theorem setE_children_eq (st : PyState) (i : Nat) (e : ChatEntry)
    (hi : i < st.entries.length) (hc : e.children = (st.getE i).children) :
    ∀ j, ((st.setE i e).getE j).children = (st.getE j).children := by
  intro j
  rcases eq_or_ne j i with heq | hne
  · subst heq
    rw [setE_getE_self st j e hi, hc]
  · rw [setE_getE_ne st i e j hne]

/-- The intermediate `addSibling` state is well-formed when viewed as a
chat with the same references. -/
theorem sibMid_wf (c : Chat) (hwf : WF c) (st0 : PyState)
    (hent : st0.entries = c.st.entries) (ha0 : ArenaWF st0) :
    WF { c with st := sibMidState c st0 }
      ∧ (sibMidState c st0).entries.length = c.st.entries.length
      ∧ (∀ j, parentOf (sibMidState c st0).entries j = parentOf c.st.entries j)
      ∧ (∀ j, ((sibMidState c st0).getE j).children = (c.st.getE j).children)
      ∧ (∀ j, ((sibMidState c st0).getE j).respRef = (c.st.getE j).respRef)
      ∧ (∀ j, (sibMidState c st0).pathFrom j = c.st.pathFrom j) := by
  have hge0 : ∀ j, st0.getE j = c.st.getE j := by
    intro j
    rw [PyState.getE, PyState.getE, hent]
  have hlen0 : st0.entries.length = c.st.entries.length := by rw [hent]
  have hcur0 : c.currentRef < st0.entries.length := by
    rw [hlen0]
    exact hwf.current_lt
  have hap : ArenaWF (sibPromptState c st0) :=
    arena_setE st0 ha0 c.currentRef _ hcur0 rfl rfl (fun j hj => hj)
  have ham : ArenaWF (sibMidState c st0) := arena_setResp _ hap _ _
  have hspar : ∀ a, parentOf (sibPromptState c st0).entries a = parentOf st0.entries a := by
    intro a
    unfold sibPromptState
    exact setE_parentOf_eq st0 c.currentRef
      { st0.getE c.currentRef with
        prompt := { (st0.getE c.currentRef).prompt with content := "" } } hcur0 rfl a
  have hsch : ∀ a, ((sibPromptState c st0).getE a).children = (st0.getE a).children := by
    intro a
    unfold sibPromptState
    exact setE_children_eq st0 c.currentRef
      { st0.getE c.currentRef with
        prompt := { (st0.getE c.currentRef).prompt with content := "" } } hcur0 rfl a
  have hsrr : ∀ a, ((sibPromptState c st0).getE a).respRef = (st0.getE a).respRef := by
    intro a
    unfold sibPromptState
    rcases eq_or_ne a c.currentRef with heq | hne
    · subst heq
      rw [setE_getE_self st0 c.currentRef
        { st0.getE c.currentRef with
        prompt := { (st0.getE c.currentRef).prompt with content := "" } } hcur0]
    · rw [setE_getE_ne st0 c.currentRef
        { st0.getE c.currentRef with
        prompt := { (st0.getE c.currentRef).prompt with content := "" } } a hne]
  have hslen : (sibPromptState c st0).entries.length = st0.entries.length := by
    unfold sibPromptState
    exact setE_length st0 _ _
  have hlen : (sibMidState c st0).entries.length = c.st.entries.length := by
    show (sibPromptState c st0).entries.length = c.st.entries.length
    rw [hslen, hlen0]
  have hpar : ∀ j, parentOf (sibMidState c st0).entries j = parentOf c.st.entries j := by
    intro j
    show parentOf (sibPromptState c st0).entries j = parentOf c.st.entries j
    rw [hspar j, hent]
  have hch : ∀ j, ((sibMidState c st0).getE j).children = (c.st.getE j).children := by
    intro j
    show ((sibPromptState c st0).getE j).children = (c.st.getE j).children
    rw [hsch j, hge0 j]
  have hrr : ∀ j, ((sibMidState c st0).getE j).respRef = (c.st.getE j).respRef := by
    intro j
    show ((sibPromptState c st0).getE j).respRef = (c.st.getE j).respRef
    rw [hsrr j, hge0 j]
  have hpf : ∀ j, (sibMidState c st0).pathFrom j = c.st.pathFrom j := by
    intro j
    show (sibPromptState c st0).pathFrom j = c.st.pathFrom j
    unfold PyState.pathFrom
    rw [hslen, hlen0]
    exact congrArg List.reverse (upChain_congr c.st.entries (sibPromptState c st0).entries
      hwf.arena.strict c.st.entries.length j (fun a _ => by rw [hspar a, hent]))
  have hlive : ∀ j, Live c.st j → Live (sibMidState c st0) j := by
    intro j hl p hp
    rw [hpar j] at hp
    rw [hch p]
    exact hl p hp
  refine ⟨⟨ham, ?_, ?_, ?_, ?_, ?_, ?_, ?_, ?_⟩, hlen, hpar, hch, hrr, hpf⟩
  · show c.rootRef < (sibMidState c st0).entries.length
    rw [hlen]
    exact hwf.root_lt
  · show parentOf (sibMidState c st0).entries c.rootRef = none
    rw [hpar]
    exact hwf.root_parent
  · show c.currentRef < (sibMidState c st0).entries.length
    rw [hlen]
    exact hwf.current_lt
  · show c.cursorRef < (sibMidState c st0).entries.length
    rw [hlen]
    exact hwf.cursor_lt
  · show ∀ j ∈ (sibMidState c st0).pathFrom c.cursorRef, Live (sibMidState c st0) j
    intro j hj
    rw [hpf] at hj
    exact hlive j (hwf.liveCursor j hj)
  · show ∀ j ∈ (sibMidState c st0).pathFrom c.currentRef, Live (sibMidState c st0) j
    intro j hj
    rw [hpf] at hj
    exact hlive j (hwf.liveCurrent j hj)
  · show c.path = (sibMidState c st0).pathFrom c.currentRef
    rw [hpf]
    exact hwf.path_eq
  · show ((sibMidState c st0).getE c.currentRef).children = []
    rw [hch]
    exact hwf.current_leaf

/-- The fresh entry of a construction is live. -/
theorem newEntry_live_new (st0 : PyState) (m : Message) (r : Nat) (q : Option Nat)
    (hq : ∀ x, q = some x → x < st0.entries.length) :
    Live (st0.newEntry m r q).1 (st0.newEntry m r q).2 := by
  intro p hp
  rw [newEntry_snd] at hp ⊢
  cases q with
  | none =>
    rw [newEntry_none_parentOf_new] at hp
    cases hp
  | some x =>
    rw [newEntry_some_parentOf_new st0 m r x (hq x rfl)] at hp
    cases hp
    rw [newEntry_some_getE_parent st0 m r _ (hq _ rfl)]
    exact List.mem_append_right _ (List.mem_singleton.2 rfl)

/-- Setting a response cell stores the value. -/
theorem getR_set_self (st : PyState) (rr : Nat) (x : Response) (h : rr < st.resps.length) :
    ({ st with resps := st.resps.set rr x } : PyState).getR rr = x := by
  simp [PyState.getR, List.getElem?_set_self h]

/-- `addSibling` always succeeds on a well-formed chat: the fresh entry
(sharing the cursor's parent) becomes current and cursor, its response
reference is the shared `addSibling` default (for an omitted argument)
or a fresh heap cell, old entries keep their response references, and
every response cell aliased to the superseded current entry's response
now holds an empty choices list. -/
theorem addSibling_spec (c : Chat) (hwf : WF c) (prompt : Message)
    (response : Option Response) :
    ∃ c', c.addSibling prompt response = .ok c'
      ∧ WF c'
      ∧ c'.rootRef = c.rootRef
      ∧ c'.currentRef = c.st.entries.length
      ∧ c'.cursorRef = c.st.entries.length
      ∧ c'.st.entries.length = c.st.entries.length + 1
      ∧ (c'.st.getE c.st.entries.length).respRef
          = (match response with
            | none => sibDefaultResp
            | some _ => c.st.resps.length)
      ∧ (∀ i, i < c.st.entries.length → (c'.st.getE i).respRef = (c.st.getE i).respRef)
      ∧ (∀ i, i < c.st.entries.length →
          (c.st.getE i).respRef = (c.st.getE c.currentRef).respRef →
          (c'.st.getR ((c'.st.getE i).respRef)).choices = []) := by
  have core : ∀ (st0 : PyState) (r : Nat), st0.entries = c.st.entries →
      ArenaWF st0 → c.st.resps.length ≤ st0.resps.length → r < st0.resps.length →
      ∃ c', Chat.updateCursorAttrs
          { c with
            st := ((sibMidState c st0).newEntry prompt r
              ((sibMidState c st0).getE c.cursorRef).parent).1,
            previousRef := some c.currentRef,
            currentRef := ((sibMidState c st0).newEntry prompt r
              ((sibMidState c st0).getE c.cursorRef).parent).2,
            path := ((sibMidState c st0).newEntry prompt r
              ((sibMidState c st0).getE c.cursorRef).parent).1.pathFrom
                ((sibMidState c st0).newEntry prompt r
                  ((sibMidState c st0).getE c.cursorRef).parent).2,
            cursorRef := ((sibMidState c st0).newEntry prompt r
              ((sibMidState c st0).getE c.cursorRef).parent).2 } = .ok c'
        ∧ WF c'
        ∧ c'.rootRef = c.rootRef
        ∧ c'.currentRef = c.st.entries.length
        ∧ c'.cursorRef = c.st.entries.length
        ∧ c'.st.entries.length = c.st.entries.length + 1
        ∧ (c'.st.getE c.st.entries.length).respRef = r
        ∧ (∀ i, i < c.st.entries.length → (c'.st.getE i).respRef = (c.st.getE i).respRef)
        ∧ (∀ i, i < c.st.entries.length →
            (c.st.getE i).respRef = (c.st.getE c.currentRef).respRef →
            (c'.st.getR ((c'.st.getE i).respRef)).choices = []) := by
    intro st0 r hent ha0 hle hr
    obtain ⟨hwfMid, hlenMid, hparMid, hchMid, hrrMid, hpfMid⟩ :=
      sibMid_wf c hwf st0 hent ha0
    have hq : ∀ x, ((sibMidState c st0).getE c.cursorRef).parent = some x →
        x < (sibMidState c st0).entries.length := by
      intro x hx
      have h1 : parentOf (sibMidState c st0).entries c.cursorRef = some x := hx
      have h2 := hwfMid.arena.strict _ _ h1
      have h3 := hwf.cursor_lt
      rw [hlenMid]
      omega
    have hqc : ((sibMidState c st0).getE c.cursorRef).parent = none
        ∨ ∃ x, ((sibMidState c st0).getE c.cursorRef).parent = some x
          ∧ x < (sibMidState c st0).entries.length
          ∧ ∀ j ∈ (sibMidState c st0).pathFrom x, Live (sibMidState c st0) j := by
      cases hx : ((sibMidState c st0).getE c.cursorRef).parent with
      | none => exact Or.inl rfl
      | some p =>
        obtain ⟨hplt, hlive⟩ :=
          liveChain_parent { c with st := sibMidState c st0 } hwfMid p hx
        exact Or.inr ⟨p, rfl, hplt, hlive⟩
    obtain ⟨c', hok⟩ := updateCursorAttrs_succeeds
      { c with
        st := ((sibMidState c st0).newEntry prompt r
          ((sibMidState c st0).getE c.cursorRef).parent).1,
        previousRef := some c.currentRef,
        currentRef := ((sibMidState c st0).newEntry prompt r
          ((sibMidState c st0).getE c.cursorRef).parent).2,
        path := ((sibMidState c st0).newEntry prompt r
          ((sibMidState c st0).getE c.cursorRef).parent).1.pathFrom
            ((sibMidState c st0).newEntry prompt r
              ((sibMidState c st0).getE c.cursorRef).parent).2,
        cursorRef := ((sibMidState c st0).newEntry prompt r
          ((sibMidState c st0).getE c.cursorRef).parent).2 }
      (newEntry_live_new (sibMidState c st0) prompt r _ hq)
    have hrMid : r < (sibMidState c st0).resps.length := by
      show r < ((sibPromptState c st0).resps.set
        ((sibPromptState c st0).getE c.currentRef).respRef
        { (sibPromptState c st0).getR
            ((sibPromptState c st0).getE c.currentRef).respRef with choices := [] }).length
      rw [List.length_set]
      exact hr
    obtain ⟨hwf', hroot, hcur, hcurs, hlen, hpaths, hpathn, hresp, hrespold, hresps⟩ :=
      newCurrent_wf { c with st := sibMidState c st0 } hwfMid (sibMidState c st0) prompt r
        ((sibMidState c st0).getE c.cursorRef).parent rfl hwfMid.arena hrMid hqc hok
    have hlt' : ∀ i, i < c.st.entries.length → i < (sibMidState c st0).entries.length := by
      intro i hi
      rw [hlenMid]
      exact hi
    have hold : ∀ i, i < c.st.entries.length →
        (c'.st.getE i).respRef = (c.st.getE i).respRef := by
      intro i hi
      exact (hrespold i (hlt' i hi)).trans (hrrMid i)
    have hresp' : (c'.st.getE c.st.entries.length).respRef = r := by
      rw [← hlenMid]
      exact hresp
    have hge0 : ∀ j, st0.getE j = c.st.getE j := by
      intro j
      rw [PyState.getE, PyState.getE, hent]
    have hcur0 : c.currentRef < st0.entries.length := by
      rw [hent]
      exact hwf.current_lt
    have hrr0 : ((sibPromptState c st0).getE c.currentRef).respRef
        = (c.st.getE c.currentRef).respRef := by
      unfold sibPromptState
      rw [setE_getE_self st0 c.currentRef _ hcur0]
      show (st0.getE c.currentRef).respRef = _
      rw [hge0]
    have hltset : ((sibPromptState c st0).getE c.currentRef).respRef
        < (sibPromptState c st0).resps.length := by
      rw [hrr0]
      show (c.st.getE c.currentRef).respRef < st0.resps.length
      exact lt_of_lt_of_le (hwf.arena.resp_lt c.currentRef hwf.current_lt) hle
    have hset := getR_set_self (sibPromptState c st0)
      (((sibPromptState c st0).getE c.currentRef).respRef)
      { (sibPromptState c st0).getR
          ((sibPromptState c st0).getE c.currentRef).respRef with choices := [] } hltset
    have hframe : ∀ i, i < c.st.entries.length →
        (c.st.getE i).respRef = (c.st.getE c.currentRef).respRef →
        (c'.st.getR ((c'.st.getE i).respRef)).choices = [] := by
      intro i hi halias
      rw [hold i hi, halias]
      have hgr : c'.st.getR ((c.st.getE c.currentRef).respRef)
          = (sibMidState c st0).getR ((c.st.getE c.currentRef).respRef) := by
        rw [PyState.getR, PyState.getR, hresps]
      rw [hgr, ← hrr0]
      have hfin : (sibMidState c st0).getR
          (((sibPromptState c st0).getE c.currentRef).respRef)
          = { (sibPromptState c st0).getR
              ((sibPromptState c st0).getE c.currentRef).respRef with choices := [] } := hset
      rw [hfin]
    refine ⟨c', hok, hwf', hroot, hcur.trans hlenMid, hcurs.trans hlenMid,
      hlen.trans (congrArg (fun n => n + 1) hlenMid), hresp', hold, hframe⟩
  cases response with
  | none =>
    have hr : sibDefaultResp < c.st.resps.length := by
      have := hwf.arena.resps_ge
      unfold sibDefaultResp
      omega
    obtain ⟨c', hok, hwf', hroot, hcur, hcurs, hlen, hresp, hold, hframe⟩ :=
      core c.st sibDefaultResp rfl hwf.arena le_rfl hr
    exact ⟨c', hok, hwf', hroot, hcur, hcurs, hlen, hresp, hold, hframe⟩
  | some resp =>
    have hle : c.st.resps.length ≤ (c.st.allocR resp).1.resps.length := by
      show c.st.resps.length ≤ (c.st.resps ++ [resp]).length
      simp
    have hr : (c.st.allocR resp).2 < (c.st.allocR resp).1.resps.length := by
      show c.st.resps.length < (c.st.resps ++ [resp]).length
      simp
    obtain ⟨c', hok, hwf', hroot, hcur, hcurs, hlen, hresp, hold, hframe⟩ :=
      core (c.st.allocR resp).1 (c.st.allocR resp).2 rfl
        (arena_allocR c.st hwf.arena resp) hle hr
    exact ⟨c', hok, hwf', hroot, hcur, hcurs, hlen, hresp, hold, hframe⟩

/-- `clear()` produces a well-formed chat from weak assumptions on the
arena: the root keeps its reference and loses all children except a
fresh default entry, which becomes current and cursor with a freshly
allocated default response. -/
theorem clear_spec (c : Chat) (ha : ArenaWF c.st) (hroot : c.rootRef < c.st.entries.length)
    (hrp : parentOf c.st.entries c.rootRef = none) :
    WF c.clear
      ∧ c.clear.rootRef = c.rootRef
      ∧ c.clear.currentRef = c.st.entries.length
      ∧ c.clear.cursorRef = c.st.entries.length
      ∧ c.clear.st.entries.length = c.st.entries.length + 1
      ∧ c.clear.st.getE c.st.entries.length
          = { prompt := Message.Default, respRef := c.st.resps.length,
              parent := some c.rootRef, children := [] }
      ∧ (c.clear.st.getE c.rootRef).children = [c.st.entries.length]
      ∧ c.clear.st.getR c.st.resps.length = Response.Default
      ∧ c.clear.st.resps.length = c.st.resps.length + 1
      ∧ c.clear.cursorSiblingIndex = 0
      ∧ c.clear.st.pathFrom c.clear.currentRef
          = [c.rootRef, c.st.entries.length] := by
  let A : PyState := c.st.setE c.rootRef { c.st.getE c.rootRef with children := [] }
  let B : PyState := (A.allocR Response.Default).1
  let C : PyState := (B.newEntry Message.Default c.st.resps.length (some c.rootRef)).1
  have ha0 : ArenaWF A :=
    arena_setE c.st ha c.rootRef _ hroot rfl rfl (fun j hj => absurd hj (List.not_mem_nil j))
  have ha1 : ArenaWF B := arena_allocR A ha0 _
  have hlenA : A.entries.length = c.st.entries.length := setE_length c.st _ _
  have hlenB : B.entries.length = c.st.entries.length := hlenA
  have hrootB : c.rootRef < B.entries.length := by
    rw [hlenB]
    exact hroot
  have hrB : c.st.resps.length < B.resps.length := by
    show c.st.resps.length < (c.st.resps ++ [Response.Default]).length
    simp
  have ha2 : ArenaWF C :=
    arena_newEntry B ha1 Message.Default c.st.resps.length (some c.rootRef) hrB
      (fun x hx => by rw [← Option.some.inj hx]; exact hrootB)
  have hlenC : C.entries.length = c.st.entries.length + 1 := by
    show (B.newEntry Message.Default c.st.resps.length (some c.rootRef)).1.entries.length
      = c.st.entries.length + 1
    rw [newEntry_some_length, hlenB]
  have hnew : C.getE B.entries.length
      = { prompt := Message.Default, respRef := c.st.resps.length,
          parent := some c.rootRef, children := [] } :=
    newEntry_some_getE_new B Message.Default c.st.resps.length c.rootRef hrootB
  have hnew' : C.getE c.st.entries.length
      = { prompt := Message.Default, respRef := c.st.resps.length,
          parent := some c.rootRef, children := [] } := by
    rw [← hlenB]
    exact hnew
  have hchroot : (C.getE c.rootRef).children = [c.st.entries.length] := by
    rw [show C.getE c.rootRef
        = { B.getE c.rootRef with
            children := (B.getE c.rootRef).children ++ [B.entries.length] }
      from newEntry_some_getE_parent B Message.Default c.st.resps.length c.rootRef hrootB]
    show (B.getE c.rootRef).children ++ [B.entries.length] = [c.st.entries.length]
    rw [show B.getE c.rootRef = { c.st.getE c.rootRef with children := [] }
      from setE_getE_self c.st c.rootRef _ hroot]
    show ([] : List Nat) ++ [B.entries.length] = [c.st.entries.length]
    rw [List.nil_append, hlenB]
  have hparOld : ∀ j, j ≠ B.entries.length →
      parentOf C.entries j = parentOf c.st.entries j := by
    intro j hj
    rw [show parentOf C.entries j = parentOf B.entries j
      from newEntry_some_parentOf B Message.Default c.st.resps.length c.rootRef hrootB j hj]
    exact setE_parentOf_eq c.st c.rootRef
      { c.st.getE c.rootRef with children := [] } hroot rfl j
  have hparNew : parentOf C.entries c.st.entries.length = some c.rootRef := by
    rw [← hlenB]
    exact newEntry_some_parentOf_new B Message.Default c.st.resps.length c.rootRef hrootB
  have hparRoot : parentOf C.entries c.rootRef = none := by
    rw [hparOld c.rootRef (by rw [hlenB]; omega)]
    exact hrp
  have hpathNew : C.pathFrom c.st.entries.length = [c.rootRef, c.st.entries.length] := by
    rw [pathFrom_step C ha2.strict c.st.entries.length c.rootRef hparNew
      (by rw [hlenC]; omega), pathFrom_none C c.rootRef hparRoot]
    rfl
  have hliveNew : Live C c.st.entries.length := by
    intro p hp
    rw [hparNew] at hp
    have hpe := Option.some.inj hp
    subst hpe
    rw [hchroot]
    exact List.mem_singleton.2 rfl
  have hliveRoot : Live C c.rootRef := by
    intro p hp
    rw [hparRoot] at hp
    cases hp
  have hliveAll : ∀ j ∈ C.pathFrom B.entries.length, Live C j := by
    intro j hj
    rw [hlenB, hpathNew] at hj
    simp only [List.mem_cons, List.mem_singleton, List.not_mem_nil, or_false] at hj
    rcases hj with rfl | rfl
    · exact hliveRoot
    · exact hliveNew
  have hrootltC : c.rootRef < C.entries.length := by
    rw [hlenC]
    omega
  have hcurltC : B.entries.length < C.entries.length := by
    rw [hlenB, hlenC]
    omega
  have hleaf : (C.getE B.entries.length).children = [] := by
    rw [hnew]
  have hresC : C.resps = c.st.resps ++ [Response.Default] := by
    show (B.newEntry Message.Default c.st.resps.length (some c.rootRef)).1.resps
      = c.st.resps ++ [Response.Default]
    rw [newEntry_resps]
    rfl
  have hgetR : C.getR c.st.resps.length = Response.Default := by
    rw [PyState.getR, hresC, List.getElem?_concat_length]
    rfl
  have hrlen : C.resps.length = c.st.resps.length + 1 := by
    rw [hresC]
    simp
  have hpathB : C.pathFrom B.entries.length = [c.rootRef, c.st.entries.length] := by
    rw [hlenB]
    exact hpathNew
  exact ⟨⟨ha2, hrootltC, hparRoot, hcurltC, hcurltC, hliveAll, hliveAll, rfl, hleaf⟩,
    rfl, hlenB, hlenB, hlenC, hnew', hchroot, hgetR, hrlen, rfl, hpathB⟩

/-- The freshly constructed `Chat()` is well-formed, with the cursor on
the current entry and the path to current holding the root sentinel and
the initial default entry. -/
theorem start_spec :
    WF Chat.start
      ∧ Chat.start.cursorRef = Chat.start.currentRef
      ∧ Chat.start.st.pathFrom Chat.start.currentRef
          = [Chat.start.rootRef, Chat.start.currentRef] := by
  let st1 : PyState := (moduleState.allocR Response.Default).1
  let r : Nat := (moduleState.allocR Response.Default).2
  let st2 : PyState := (st1.newEntry Message.Default r none).1
  let root : Nat := (st1.newEntry Message.Default r none).2
  let P : Chat := { st := st2, rootRef := root, currentRef := root, previousRef := none,
                    cursorRef := root, path := [], cursorPath := [],
                    cursorSiblingIndex := 0 }
  have hnoneP : ∀ i, parentOf P.st.entries i = none := by
    intro i
    cases i with
    | zero => rfl
    | succ k => rfl
  have hchP : ∀ i, (P.st.getE i).children = [] := by
    intro i
    cases i with
    | zero => rfl
    | succ k => rfl
  have haP : ArenaWF P.st := by
    refine ⟨?_, ?_, ?_, ?_⟩
    · intro i p h
      rw [hnoneP i] at h
      cases h
    · intro i j hj
      rw [hchP i] at hj
      exact absurd hj (List.not_mem_nil j)
    · intro i hi
      have hl : P.st.entries.length = 1 := rfl
      have h0 : i = 0 := by omega
      subst h0
      decide
    · decide
  have hrootP : P.rootRef < P.st.entries.length := by decide
  have hrpP : parentOf P.st.entries P.rootRef = none := hnoneP _
  obtain ⟨hwf, hroot, hcur, hcurs, hlen, hnew, hch, hgetR, hrlen, hsib, hpath⟩ :=
    clear_spec P haP hrootP hrpP
  exact ⟨hwf, hcurs.trans hcur.symm, hpath⟩

/-- Every successful public operation preserves well-formedness. -/
theorem wf_step {c c' : Chat} {op : ChatOp} (hwf : WF c) (h : c.apply op = .ok c') :
    WF c' := by
  cases op with
  | addSibling p r =>
    obtain ⟨c'', hok, hwf', _⟩ := addSibling_spec c hwf p r
    have h' : c.addSibling p r = .ok c' := h
    rw [hok] at h'
    exact (Except.ok.inj h') ▸ hwf'
  | addDescendant p r =>
    obtain ⟨c'', hok, hwf', _⟩ := addDescendant_spec c hwf p r
    have h' : c.addDescendant p r = .ok c' := h
    rw [hok] at h'
    exact (Except.ok.inj h') ▸ hwf'
  | up => exact wf_up hwf h
  | down => exact wf_down hwf h
  | left => exact wf_left hwf h
  | right => exact wf_right hwf h
  | top => exact wf_top hwf h
  | bottom => exact wf_bottom hwf h
  | returnToCurrent =>
    have h' : Except.ok (ε := PyErr) c.returnToCurrent = .ok c' := h
    exact (Except.ok.inj h') ▸ wf_returnToCurrent hwf
  | clear =>
    have h' : Except.ok (ε := PyErr) c.clear = .ok c' := h
    exact (Except.ok.inj h') ▸ (clear_spec c hwf.arena hwf.root_lt hwf.root_parent).1

/-- Every reachable chat state is well-formed. -/
theorem reachable_wf {c : Chat} (h : Reachable c) : WF c := by
  induction h with
  | start => exact start_spec.1
  | step hr hok ih => exact wf_step ih hok

/-- C3: after `clear()` on any reachable chat state, `isDefault()` is
true and all four `canMove` predicates are false. -/
theorem C3_clear_resets (c : Chat) (h : Reachable c) :
    c.clear.isDefault = true
      ∧ c.clear.canMoveUp = false
      ∧ c.clear.canMoveDown = false
      ∧ c.clear.canMoveLeft = false
      ∧ c.clear.canMoveRight = false := by
  have hwf := reachable_wf h
  obtain ⟨hwfc, hrt, hcur, hcurs, hlen, hnew, hchroot, hgetR, hrlen, hsib, hpath⟩ :=
    clear_spec c hwf.arena hwf.root_lt hwf.root_parent
  have hnewCur : c.clear.st.getE c.clear.currentRef
      = { prompt := Message.Default, respRef := c.st.resps.length,
          parent := some c.rootRef, children := [] } := by
    rw [hcur]
    exact hnew
  have hnewCurs : c.clear.st.getE c.clear.cursorRef
      = { prompt := Message.Default, respRef := c.st.resps.length,
          parent := some c.rootRef, children := [] } := by
    rw [hcurs]
    exact hnew
  have hMD : Message.Default.isDefault = true := by decide
  have hRD : Response.Default.isDefault = true := by decide
  refine ⟨?_, ?_, ?_, ?_, ?_⟩
  · simp only [Chat.isDefault, hnewCur, hrt, hchroot, hgetR, hMD, hRD]
    simp
  · simp only [Chat.canMoveUp, hnewCurs, hrt]
    simp
  · simp only [Chat.canMoveDown, hnewCurs]
    simp
  · simp only [Chat.canMoveLeft, hsib]
    simp
  · simp only [Chat.canMoveRight, hnewCurs, hsib, hchroot]
    simp

/-- C3 (witness): the theorem applied to the freshly constructed chat. -/
theorem C3_witness :
    Chat.start.clear.isDefault = true
      ∧ Chat.start.clear.canMoveUp = false
      ∧ Chat.start.clear.canMoveDown = false
      ∧ Chat.start.clear.canMoveLeft = false
      ∧ Chat.start.clear.canMoveRight = false :=
  C3_clear_resets Chat.start Reachable.start

/-- A chain of `addDescendant` calls from a well-formed chat whose
cursor sits on the current entry keeps the cursor on current and grows
the path to current by one entry per call. -/
theorem descChain_spec (calls : List (Message × Option Response)) :
    ∀ (c c' : Chat), WF c → c.cursorRef = c.currentRef →
    c.applyOps (calls.map fun pr => ChatOp.addDescendant pr.1 pr.2) = .ok c' →
    WF c' ∧ c'.cursorRef = c'.currentRef
      ∧ (c'.st.pathFrom c'.currentRef).length
        = (c.st.pathFrom c.currentRef).length + calls.length := by
  induction calls with
  | nil =>
    intro c c' hwf hcc h
    simp only [List.map_nil, Chat.applyOps, Except.ok.injEq] at h
    subst h
    exact ⟨hwf, hcc, by simp⟩
  | cons pr rest ih =>
    intro c c' hwf hcc h
    rw [List.map_cons] at h
    simp only [Chat.applyOps, bind, Except.bind] at h
    obtain ⟨c'', hok, hwf1, hroot1, hcur1, hcurs1, hlen1, hpath1, hresp1, hold1⟩ :=
      addDescendant_spec c hwf pr.1 pr.2
    cases happ : c.apply (ChatOp.addDescendant pr.1 pr.2) with
    | error e =>
      rw [happ] at h
      cases h
    | ok c1 =>
      rw [happ] at h
      have happ' : c.addDescendant pr.1 pr.2 = .ok c1 := happ
      have he : c'' = c1 := Except.ok.inj (hok.symm.trans happ')
      subst he
      have hcc1 : c''.cursorRef = c''.currentRef := hcurs1.trans hcur1.symm
      have hstep : (c''.st.pathFrom c''.currentRef).length
          = (c.st.pathFrom c.currentRef).length + 1 := by
        rw [← hwf1.path_eq, hpath1, hcc]
        simp
      obtain ⟨hwf', hcc', hplen⟩ := ih c'' c' hwf1 hcc1 h
      refine ⟨hwf', hcc', ?_⟩
      rw [hplen, hstep, List.length_cons]
      omega

/-- C1 (amended): from a freshly constructed chat, after a sequence of
`n` successful `addDescendant` calls (each with a non-default prompt),
`chat.current.path()` has `n + 2` entries — the `n` new entries plus the
root sentinel and the initial default entry, the root not being excluded
from `path()`. -/
theorem C1_path_length (calls : List (Message × Option Response)) {c : Chat}
    (_hnd : ∀ pr ∈ calls, pr.1.isDefault = false)
    (h : Chat.applyOps Chat.start
        (calls.map fun pr => ChatOp.addDescendant pr.1 pr.2) = .ok c) :
    (c.st.pathFrom c.currentRef).length = calls.length + 2 := by
  obtain ⟨hwf0, hcc0, hpath0⟩ := start_spec
  obtain ⟨hwf', hcc', hplen⟩ := descChain_spec calls Chat.start c hwf0 hcc0 h
  rw [hplen, hpath0]
  simp [List.length_cons]
  omega

/-- C1 (witness): the amended theorem applied to one `addDescendant`
call with a non-default user prompt. -/
theorem C1_witness :
    ((chatAfter oneDescOps).st.pathFrom (chatAfter oneDescOps).currentRef).length
      = [(usrMsg "hi", (none : Option Response))].length + 2 :=
  C1_path_length [(usrMsg "hi", none)] (by decide) (by rfl)

/-- Any recorded child of any entry is live. -/
theorem live_of_child (c : Chat) (hwf : WF c) (x ch : Nat)
    (hch : ch ∈ (c.st.getE x).children) : Live c.st ch := by
  intro p hp
  obtain ⟨_, _, hpar⟩ := hwf.arena.coh x ch hch
  rw [hpar] at hp
  rw [← Option.some.inj hp]
  exact hch

/-- `children[k]` for a non-negative in-range Python index. -/
theorem downTo_pos (c : Chat) (k : Nat) (hk : k < (c.st.getE c.cursorRef).children.length) :
    c.downTo (k : Int) = Chat.updateCursorAttrs
      { c with cursorRef := (c.st.getE c.cursorRef).children.getD k 0 } := by
  simp only [Chat.downTo]
  rw [if_neg (show ¬((k : Int) < 0) by omega)]
  rw [if_pos ⟨by omega, by omega⟩]
  rw [show ((k : Int)).toNat = k by omega]

/-- `children[-1]` wraps once to the last element. -/
theorem downTo_neg_one (c : Chat) (hne : (c.st.getE c.cursorRef).children ≠ []) :
    c.downTo (-1) = Chat.updateCursorAttrs
      { c with
        cursorRef := (c.st.getE c.cursorRef).children.getD
          ((c.st.getE c.cursorRef).children.length - 1) 0 } := by
  have hlen : 0 < (c.st.getE c.cursorRef).children.length := List.length_pos.2 hne
  simp only [Chat.downTo]
  rw [if_pos (show ((-1 : Int)) < 0 by omega)]
  rw [if_pos ⟨by omega, by omega⟩]
  rw [show ((-1 : Int) + ((c.st.getE c.cursorRef).children.length : Int)).toNat
      = (c.st.getE c.cursorRef).children.length - 1 by omega]

/-- C2: on every reachable chat state, when the cursor lies on the
cached path to current and has more than one child, `down()` succeeds
and moves the cursor to the path-continuing child (the successor of the
cursor on the cached path, which is one of the cursor's children);
otherwise, when the cursor has at least one child, `down()` succeeds and
moves the cursor to the last child. -/
theorem C2_down_tie_break (c : Chat) (h : Reachable c) :
    (c.cursorRef ∈ c.path ∧ (c.st.getE c.cursorRef).children.length > 1 →
      ∃ c', c.down = .ok c'
        ∧ c.path[c.path.indexOf c.cursorRef + 1]? = some c'.cursorRef
        ∧ c'.cursorRef ∈ (c.st.getE c.cursorRef).children)
      ∧ (¬(c.cursorRef ∈ c.path ∧ (c.st.getE c.cursorRef).children.length > 1) →
          (c.st.getE c.cursorRef).children ≠ [] →
          ∃ c', c.down = .ok c'
            ∧ some c'.cursorRef = (c.st.getE c.cursorRef).children.getLast?) := by
  have hwf := reachable_wf h
  constructor
  · rintro ⟨hmem, hgt⟩
    have hidx : c.path.indexOf c.cursorRef < c.path.length :=
      List.indexOf_lt_length.2 hmem
    have hnecur : c.cursorRef ≠ c.currentRef := by
      intro he
      rw [he, hwf.current_leaf] at hgt
      simp at hgt
    have hlt : c.path.indexOf c.cursorRef + 1 < c.path.length := by
      rcases Nat.lt_or_ge (c.path.indexOf c.cursorRef + 1) c.path.length with h1 | h1
      · exact h1
      · exfalso
        have hidxe : c.path.indexOf c.cursorRef = c.path.length - 1 := by omega
        have h2 : c.path.getLast? = some c.currentRef := by
          rw [hwf.path_eq]
          exact pathFrom_getLast _ _
        have h3 : c.path.getLast? = c.path[c.path.length - 1]? :=
          List.getLast?_eq_getElem? _
        have h5 : c.path[c.path.indexOf c.cursorRef]? = some c.cursorRef := by
          rw [List.getElem?_eq_getElem hidx, List.getElem_indexOf hidx]
        have h7 : c.path[c.path.indexOf c.cursorRef]? = some c.currentRef := by
          rw [hidxe]
          exact h3.symm.trans h2
        rw [h5] at h7
        exact hnecur (Option.some.inj h7)
    obtain ⟨nxt, hnxt⟩ : ∃ v, c.path[c.path.indexOf c.cursorRef + 1]? = some v :=
      ⟨_, List.getElem?_eq_getElem hlt⟩
    have hch := pathFrom_chain c.st c.currentRef
    rw [← hwf.path_eq] at hch
    have hrel := (List.chain'_iff_get.1 hch) (c.path.indexOf c.cursorRef) (by omega)
    have hg1 : c.path.get ⟨c.path.indexOf c.cursorRef, by omega⟩ = c.cursorRef := by
      rw [List.get_eq_getElem]
      exact List.getElem_indexOf hidx
    have hg2 : some (c.path.get ⟨c.path.indexOf c.cursorRef + 1, by omega⟩) = some nxt := by
      rw [List.get_eq_getElem, ← List.getElem?_eq_getElem hlt]
      exact hnxt
    rw [hg1, Option.some.inj hg2] at hrel
    have hnxtmem : nxt ∈ c.path := by
      have h9 : c.path[c.path.indexOf c.cursorRef + 1]? = some nxt := hnxt
      rw [List.getElem?_eq_getElem hlt] at h9
      rw [← Option.some.inj h9]
      exact List.getElem_mem hlt
    have hnxtlive : Live c.st nxt := by
      rw [hwf.path_eq] at hnxtmem
      exact hwf.liveCurrent nxt hnxtmem
    have hnxtchild : nxt ∈ (c.st.getE c.cursorRef).children := hnxtlive c.cursorRef hrel
    have hkidx : (c.st.getE c.cursorRef).children.indexOf nxt
        < (c.st.getE c.cursorRef).children.length := List.indexOf_lt_length.2 hnxtchild
    have hpar' : (c.st.getE nxt).parent = some c.cursorRef := hrel
    have hei : c.st.entryIndex nxt
        = .ok ((c.st.getE c.cursorRef).children.indexOf nxt) := by
      simp only [PyState.entryIndex, hpar']
      rw [if_pos hnxtchild]
    have hdi : c.downIdx = .ok (((c.st.getE c.cursorRef).children.indexOf nxt : Int)) := by
      unfold Chat.downIdx
      rw [if_pos ⟨hmem, hgt⟩, hnxt]
      simp only [hei]
    have hlen0 : ¬((c.st.getE c.cursorRef).children.length = 0) := by omega
    have hdown : c.down
        = c.downTo (((c.st.getE c.cursorRef).children.indexOf nxt : Int)) := by
      unfold Chat.down
      rw [if_neg hlen0]
      simp only [hdi]
    have hgetd : (c.st.getE c.cursorRef).children.getD
        ((c.st.getE c.cursorRef).children.indexOf nxt) 0 = nxt := by
      rw [List.getD_eq_getElem?_getD, List.getElem?_eq_getElem hkidx,
        List.getElem_indexOf hkidx]
      rfl
    have hdt := downTo_pos c ((c.st.getE c.cursorRef).children.indexOf nxt) hkidx
    rw [hgetd] at hdt
    obtain ⟨c', hok⟩ := updateCursorAttrs_succeeds { c with cursorRef := nxt } hnxtlive
    obtain ⟨k', hk', hc'⟩ := updateCursorAttrs_ok _ hok
    refine ⟨c', ?_, ?_, ?_⟩
    · rw [hdown, hdt]
      exact hok
    · rw [hc']
      exact hnxt
    · rw [hc']
      exact hnxtchild
  · intro hnot hne
    have hlen : 0 < (c.st.getE c.cursorRef).children.length := List.length_pos.2 hne
    have hlen0 : ¬((c.st.getE c.cursorRef).children.length = 0) := by omega
    have hdi : c.downIdx = .ok (-1) := by
      unfold Chat.downIdx
      rw [if_neg hnot]
    have hdown : c.down = c.downTo (-1) := by
      unfold Chat.down
      rw [if_neg hlen0]
      simp only [hdi]
    have hdt := downTo_neg_one c hne
    have hlastmem : (c.st.getE c.cursorRef).children.getD
        ((c.st.getE c.cursorRef).children.length - 1) 0
        ∈ (c.st.getE c.cursorRef).children := getD_mem_of_lt (by omega) 0
    have hlast : (c.st.getE c.cursorRef).children.getLast?
        = some ((c.st.getE c.cursorRef).children.getD
            ((c.st.getE c.cursorRef).children.length - 1) 0) := by
      rw [List.getLast?_eq_getElem?,
        List.getElem?_eq_getElem
          (show (c.st.getE c.cursorRef).children.length - 1
              < (c.st.getE c.cursorRef).children.length by omega),
        List.getD_eq_getElem?_getD,
        List.getElem?_eq_getElem
          (show (c.st.getE c.cursorRef).children.length - 1
              < (c.st.getE c.cursorRef).children.length by omega)]
      rfl
    have hlive : Live c.st ((c.st.getE c.cursorRef).children.getD
        ((c.st.getE c.cursorRef).children.length - 1) 0) :=
      live_of_child c hwf c.cursorRef _ hlastmem
    obtain ⟨c', hok⟩ := updateCursorAttrs_succeeds
      { c with
        cursorRef := (c.st.getE c.cursorRef).children.getD
          ((c.st.getE c.cursorRef).children.length - 1) 0 } hlive
    obtain ⟨k', hk', hc'⟩ := updateCursorAttrs_ok _ hok
    refine ⟨c', ?_, ?_⟩
    · rw [hdown, hdt]
      exact hok
    · rw [hc']
      exact hlast.symm

/-- C2 (witness): the theorem's tie-break branch applied to a concrete
reachable state whose cursor lies on the path to current with two
children. -/
theorem C2_witness :
    ∃ c', (chatAfter tieBreakOps).down = .ok c'
      ∧ (chatAfter tieBreakOps).path[(chatAfter tieBreakOps).path.indexOf
          (chatAfter tieBreakOps).cursorRef + 1]? = some c'.cursorRef
      ∧ c'.cursorRef
          ∈ ((chatAfter tieBreakOps).st.getE (chatAfter tieBreakOps).cursorRef).children :=
  (C2_down_tie_break (chatAfter tieBreakOps)
      (@reachable_applyOps Chat.start (chatAfter tieBreakOps) tieBreakOps
        Reachable.start (by rfl))).1 (by decide)

/-- C10 (amended): entries created without an explicit response share
per-function defaults, not one single instance: `addSibling` hands out
the module-level `addSibling` default, `addDescendant` its own distinct
default, and `clear()` allocates a fresh response (distinct from all
three module-level defaults); the in-place `choices` clear performed by
`addSibling` is visible through every entry aliasing the superseded
current entry's response. -/
theorem C10_default_sharing (c : Chat) (h : Reachable c) (prompt : Message) :
    (∀ c', c.addSibling prompt none = .ok c' →
        (c'.st.getE c.st.entries.length).respRef = sibDefaultResp
          ∧ ∀ i, i < c.st.entries.length →
              (c.st.getE i).respRef = (c.st.getE c.currentRef).respRef →
              (c'.st.getR ((c'.st.getE i).respRef)).choices = [])
      ∧ (∀ c', c.addDescendant prompt none = .ok c' →
          (c'.st.getE c.st.entries.length).respRef = descDefaultResp)
      ∧ (c.clear.st.getE c.st.entries.length).respRef = c.st.resps.length
      ∧ c.st.resps.length ≠ ceDefaultResp
      ∧ c.st.resps.length ≠ sibDefaultResp
      ∧ c.st.resps.length ≠ descDefaultResp
      ∧ ceDefaultResp ≠ sibDefaultResp
      ∧ ceDefaultResp ≠ descDefaultResp
      ∧ sibDefaultResp ≠ descDefaultResp := by
  have hwf := reachable_wf h
  obtain ⟨cs, hoks, hwfs, hroots, hcurs, hcurss, hlens, hresps, holds, hframes⟩ :=
    addSibling_spec c hwf prompt none
  obtain ⟨cd, hokd, hwfd, hrootd, hcurd, hcursd, hlend, hpathd, hrespd, holdd⟩ :=
    addDescendant_spec c hwf prompt none
  obtain ⟨hwfc, hrtc, hcurc, hcursc, hlenc, hnewc, hchc, hgetRc, hrlenc, hsibc, hpathc⟩ :=
    clear_spec c hwf.arena hwf.root_lt hwf.root_parent
  have hge := hwf.arena.resps_ge
  refine ⟨?_, ?_, ?_, ?_, ?_, ?_, by decide, by decide, by decide⟩
  · intro c' hok'
    have he : cs = c' := Except.ok.inj (hoks.symm.trans hok')
    subst he
    exact ⟨hresps, hframes⟩
  · intro c' hok'
    have he : cd = c' := Except.ok.inj (hokd.symm.trans hok')
    subst he
    exact hrespd
  · rw [hnewc]
  · unfold ceDefaultResp
    omega
  · unfold sibDefaultResp
    omega
  · unfold descDefaultResp
    omega

/-- C10 (witness): the amended theorem applied to the freshly
constructed chat with a user prompt. -/
theorem C10_witness :
    (∀ c', Chat.start.addSibling (usrMsg "hi") none = .ok c' →
        (c'.st.getE Chat.start.st.entries.length).respRef = sibDefaultResp
          ∧ ∀ i, i < Chat.start.st.entries.length →
              (Chat.start.st.getE i).respRef
                = (Chat.start.st.getE Chat.start.currentRef).respRef →
              (c'.st.getR ((c'.st.getE i).respRef)).choices = [])
      ∧ (∀ c', Chat.start.addDescendant (usrMsg "hi") none = .ok c' →
          (c'.st.getE Chat.start.st.entries.length).respRef = descDefaultResp)
      ∧ (Chat.start.clear.st.getE Chat.start.st.entries.length).respRef
          = Chat.start.st.resps.length
      ∧ Chat.start.st.resps.length ≠ ceDefaultResp
      ∧ Chat.start.st.resps.length ≠ sibDefaultResp
      ∧ Chat.start.st.resps.length ≠ descDefaultResp
      ∧ ceDefaultResp ≠ sibDefaultResp
      ∧ ceDefaultResp ≠ descDefaultResp
      ∧ sibDefaultResp ≠ descDefaultResp :=
  C10_default_sharing Chat.start Reachable.start (usrMsg "hi")

end WrapGPT
